import Mathlib

/-
Verification development for the context-engineering subsystem:
the token-budget-constrained context store (context_manager.py), the
scoring/eviction engine (context_optimizer.py) and the window assembler
(context_window.py), with their leaf utilities (token_counter.py,
validator.py, file_handler.py).

Modelling conventions, used consistently below:
- Python strings are modelled as lists of characters (Str).  Python string
  operations (slicing, strip, lower, substring search) are modelled as the
  corresponding list operations over ASCII semantics.
- Python datetimes are modelled as rational instants measured in seconds;
  datetime.now() is passed explicitly as a parameter `now` (the claims fix
  a single "now" per run).
- Python floats (relevance scores, the fixed policy weights 0.4/0.3/0.2/0.1,
  0.9-shrink factors) are modelled with exact rational arithmetic; where a
  float expression is floored with int(), the exact integer expression is
  used.  No theorem below depends on a comparison where binary floating
  point and exact arithmetic could disagree.
- The tokenizer behind TokenCounter.count_tokens is an external collaborator
  (tiktoken); it is modelled as an abstract function together with the
  configured model limit.  The source's cheap fallback estimator
  (max 1 (len/4)) instantiates it for concrete computations.
- Python dicts are modelled as insertion-ordered association lists; dict
  assignment replaces in place, deletion removes the key.
-/

namespace CtxEng

abbrev Str := List Char

/-- Python str.lower() restricted to ASCII case mapping. -/
def toLowerStr (s : Str) : Str := s.map Char.toLower

/-- Python str.upper() restricted to ASCII case mapping. -/
def toUpperStr (s : Str) : Str := s.map Char.toUpper

/-- Characters matched by the regex class \s (ASCII subset). -/
def isWsChar (c : Char) : Bool :=
  c = ' ' || c = '\t' || c = '\n' || c = '\r' || c = '\x0b' || c = '\x0c'

/-- Characters matched by the regex class \w (ASCII subset: letters, digits, underscore). -/
def isWordChar (c : Char) : Bool :=
  c.isAlpha || c.isDigit || c = '_'

/-- Python str.strip(): remove leading and trailing whitespace. -/
def stripWs (s : Str) : Str :=
  ((s.dropWhile isWsChar).reverse.dropWhile isWsChar).reverse

/-- Python lexicographic string comparison (by code point), non-strict. -/
def strLe : Str → Str → Bool
  | [], _ => true
  | _ :: _, [] => false
  | a :: as', b :: bs' => if a = b then strLe as' bs' else decide (a < b)

/-- Python substring containment: needle in hay. -/
def containsSub (hay needle : Str) : Bool :=
  (List.range (hay.length + 1)).any (fun i => decide ((hay.drop i).take needle.length = needle))

/-- Python str.rfind for a (non-empty) pattern: index of the last occurrence, none if absent. -/
def rfindSub (text pat : Str) : Option Nat :=
  ((List.range (text.length + 1)).filter
    (fun i => decide ((text.drop i).take pat.length = pat))).getLast?

/-- Python list.remove(x): drop the first occurrence (no-op when absent; the
source guards each remove call with a membership test). -/
def removeFirst : List Str → Str → List Str
  | [], _ => []
  | x :: xs, k => if x = k then xs else x :: removeFirst xs k

/-- Python dict assignment d[k] = v on an insertion-ordered association list:
replace in place when the key exists, append otherwise. -/
def setKey {β : Type} : List (Str × β) → Str → β → List (Str × β)
  | [], k, v => [(k, v)]
  | (k', v') :: rest, k, v =>
    if k' = k then (k, v) :: rest else (k', v') :: setKey rest k v

/-- Stable insert for pySorted: place a before the first b such that le a b fails
is wrong for stability, so place a before the first b with le a b = true read as
"a may precede b"; ties in the key keep the earlier element first. -/
def pyInsert {α : Type} (le : α → α → Bool) (a : α) : List α → List α
  | [] => [a]
  | b :: l => if le a b then a :: b :: l else b :: pyInsert le a l

/-- Stable sort modelling Python's sorted(): same result as any stable sort with
respect to the total preorder le (le a b = "a may precede b", true on ties). -/
def pySorted {α : Type} (le : α → α → Bool) : List α → List α
  | [] => []
  | a :: l => pyInsert le a (pySorted le l)

theorem pyInsert_perm {α : Type} (le : α → α → Bool) (a : α) (l : List α) :
    List.Perm (pyInsert le a l) (a :: l) := by
  induction l with
  | nil => simp [pyInsert]
  | cons b t ih =>
    simp only [pyInsert]
    by_cases h : le a b = true
    · simp [h]
    · simp only [h]
      exact ((ih.cons b).trans (List.Perm.swap a b t))

theorem pySorted_perm {α : Type} (le : α → α → Bool) (l : List α) :
    List.Perm (pySorted le l) l := by
  induction l with
  | nil => simp [pySorted]
  | cons a t ih =>
    exact (pyInsert_perm le a (pySorted le t)).trans (ih.cons a)

theorem mem_pySorted {α : Type} (le : α → α → Bool) {x : α} {l : List α} :
    x ∈ pySorted le l ↔ x ∈ l :=
  (pySorted_perm le l).mem_iff

/-- Sum of a list of naturals along a sublist is bounded by the full sum. -/
theorem sum_le_of_sublist {l1 l2 : List Nat} (h : List.Sublist l1 l2) :
    l1.sum ≤ l2.sum := by
  induction h with
  | slnil => simp
  | cons a _ ih =>
    simp only [List.sum_cons]
    exact le_trans ih (Nat.le_add_left _ _)
  | cons₂ a _ ih =>
    simp only [List.sum_cons]
    exact Nat.add_le_add_left ih _

theorem sum_le_of_subperm {l1 l2 : List Nat} (h : List.Subperm l1 l2) :
    l1.sum ≤ l2.sum := by
  rcases h with ⟨l, hp, hs⟩
  calc l1.sum = l.sum := (hp.sum_eq).symm
    _ ≤ l2.sum := sum_le_of_sublist hs

/-
Token counter (src/10_core_utils/token_counter.py).

TokenCounter.count_tokens returns 0 on empty text and otherwise delegates to
the configured tokenizer (an external collaborator) or, when no tokenizer is
available, to the estimator max 1 (len / 4).  The tokenizer together with the
configured model limit is abstracted as the structure below; tcFallback is the
source's character-based estimator, used to instantiate it in concrete runs.
-/

structure TokenCounter where
  tc : Str → Nat
  modelLimit : Nat

/-- TokenCounter.count_tokens: 0 on empty text, else the configured counter. -/
def countTokens (T : TokenCounter) (s : Str) : Nat :=
  if s = [] then 0 else T.tc s

/-- The source's fallback estimator max(1, len(text) // 4). -/
def tcFallback (s : Str) : Nat := max 1 (s.length / 4)

/-- Default counter configuration: fallback estimator, model limit 200000
(model_limits lookup for the default claude model). -/
def TCdefault : TokenCounter := ⟨tcFallback, 200000⟩

/-- Binary search of truncate_to_limit: maximal prefix length whose token count
stays within the limit (mid = (left+right+1)//2; text[:mid]).  The interval
width right - left shrinks by at least one per step, so a fuel of the initial
width makes the structural recursion equivalent to the source's while loop. -/
def bsearchTruncF (T : TokenCounter) (text : Str) (limit : Nat) :
    Nat → Nat → Nat → Nat
  | 0, left, _ => left
  | fuel + 1, left, right =>
    if left < right then
      let mid := (left + right + 1) / 2
      if countTokens T (text.take mid) ≤ limit then
        bsearchTruncF T text limit fuel mid right
      else
        bsearchTruncF T text limit fuel left (mid - 1)
    else left

def bsearchTrunc (T : TokenCounter) (text : Str) (limit : Nat)
    (left right : Nat) : Nat :=
  bsearchTruncF T text limit (right - left) left right

/-- TokenCounter._truncate_at_boundary: prefer a sentence boundary past 80% of
the text, then a word boundary past 90%, else return the text unchanged.  The
float comparisons last_pos > len*0.8 and last_pos > len*0.9 are modelled
exactly as 5*pos > 4*len and 10*pos > 9*len. -/
def truncAtBoundary (text : Str) : Str :=
  let tryEnd : Str → Option Str := fun pat =>
    match rfindSub text pat with
    | none => none
    | some p => if 5 * p > 4 * text.length then some (text.take (p + pat.length)) else none
  match tryEnd ['.'] with
  | some r => r
  | none =>
  match tryEnd ['!'] with
  | some r => r
  | none =>
  match tryEnd ['?'] with
  | some r => r
  | none =>
  match tryEnd ['\n', '\n'] with
  | some r => r
  | none =>
  match rfindSub text [' '] with
  | some p => if 10 * p > 9 * text.length then text.take p else text
  | none => text

/-- TokenCounter.truncate_to_limit(text, model=None, buffer): truncate text to
the configured model limit minus the buffer; unchanged when already within the
limit, else binary-search a maximal fitting prefix and cut it at a natural
boundary. -/
def truncateToLimit (T : TokenCounter) (text : Str) (buffer : Nat) : Str :=
  let limit := T.modelLimit - buffer
  if countTokens T text ≤ limit then text
  else truncAtBoundary (text.take (bsearchTrunc T text limit 0 text.length))

/-
Context item (src/30_context_management/context_manager.py, dataclass
ContextItem).  metadata is an opaque key-value map; timestamps and expiry are
rational instants in seconds; relevance_score is an exact rational in place of
the source's float.  token_count is a natural number: the spec fixes it as the
non-negative measured size of content, and every creation path in the source
sets it from count_tokens.
-/

structure ContextItem where
  id : Str
  content : Str
  type : Str
  priority : Int
  timestamp : ℚ
  metadata : List (Str × Str)
  token_count : Nat
  relevance_score : ℚ
  expiry : Option ℚ
  tags : List Str
  deriving DecidableEq, Repr

/-- ContextItem.is_expired(): expiry is set and now is strictly past it. -/
def isExpired (c : ContextItem) (now : ℚ) : Bool :=
  match c.expiry with
  | none => false
  | some e => decide (e < now)

/-- Sum of token_count over a list of items. -/
def sumTok (l : List ContextItem) : Nat := (l.map (·.token_count)).sum

/-
Validator.is_safe_string (src/10_core_utils/validator.py, lines 170-188).
Every dangerous pattern in the source is a literal string (the regex escapes
denote literal characters) searched case-insensitively; the check returns a
boolean and does not raise.
-/

def dangerousPatterns : List Str :=
  [ "<script".toList, "javascript:".toList, "data:text/html".toList,
    "eval(".toList, "exec(".toList, "__import__".toList,
    "subprocess".toList, "os.system".toList ]

/-- Validator.is_safe_string: true iff no dangerous pattern occurs in the text
(case-insensitive search; the patterns are lowercase literals). -/
def isSafeString (text : Str) : Bool :=
  !(dangerousPatterns.any (fun p => containsSub (toLowerStr text) p))

/-
Content compression (context_optimizer.py, _compress_content and helpers).
-/

/-- re.sub with pattern \s+ and replacement " ": collapse each maximal
whitespace run to a single space.  inRun records whether the scan is inside a
whitespace run whose single replacement space was already emitted. -/
def collapseWsAux (inRun : Bool) : Str → Str
  | [] => []
  | c :: rest =>
    if isWsChar c then
      if inRun then collapseWsAux true rest
      else ' ' :: collapseWsAux true rest
    else c :: collapseWsAux false rest

def collapseWs (s : Str) : Str := collapseWsAux false s

/-- One pass of re.sub for the pattern \b word \b with empty replacement and
IGNORECASE: scan left to right over the original text, removing each
non-overlapping boundary-delimited case-insensitive occurrence of the
(lowercase, non-empty) word.  prev is the character preceding the scan
position in the original text (none at the very start). -/
def removeWordAux (w : Str) : Nat → Option Char → Str → Str
  | 0, _, s => s
  | _ + 1, _, [] => []
  | fuel + 1, prev, c :: rest =>
    let s := c :: rest
    let prevOk := match prev with
      | none => true
      | some p => !isWordChar p
    let matchHere := decide (toLowerStr (s.take w.length) = w)
    let nextOk := match s.drop w.length with
      | [] => true
      | d :: _ => !isWordChar d
    if prevOk && matchHere && nextOk then
      removeWordAux w fuel (s.take w.length).getLast? (s.drop w.length)
    else
      c :: removeWordAux w fuel (some c) rest
/- The fuel argument only realizes the source loop's termination: every step
consumes at least one character, so a fuel of the scanned text's length never
runs out for a non-empty pattern. -/

/-- Apply removeWordAux from the start of the text. -/
def removeWordBounded (w : Str) (s : Str) : Str :=
  match w with
  | [] => s
  | _ :: _ => removeWordAux w s.length none s

/-- The fixed filler-word list of _compress_content. -/
def fillerWords : List Str :=
  [ "very".toList, "really".toList, "quite".toList, "rather".toList,
    "somewhat".toList, "actually".toList, "basically".toList ]

/-- Strategy 2 of _compress_content: remove each filler word in turn, each
substitution scanning the output of the previous one. -/
def removeFillers (s : Str) : Str :=
  fillerWords.foldl (fun acc w => removeWordBounded w acc) s

/-- The compression marker appended by _compress_content. -/
def compressedMarker : Str := "\n[...compressed...]".toList

/-- ContextOptimizer._compress_content(content, max_tokens): return the content
unchanged when it already fits; otherwise collapse whitespace, remove filler
words, then, if still over the budget, truncate to the model limit (not to the
caller's budget: truncate_to_limit is called without a target) appending the
marker only when the result is strictly shorter than the original content;
finally return the result only if it fits the budget, none otherwise. -/
def compressCandidate (T : TokenCounter) (content : Str) (maxTokens : Nat) :
    Str :=
  let c1 := collapseWs (stripWs content)
  let c2 := removeFillers c1
  if maxTokens < countTokens T c2 then
    let t := truncateToLimit T c2 500
    if t.length < content.length then t ++ compressedMarker else t
  else c2

def compressContent (T : TokenCounter) (content : Str) (maxTokens : Nat) :
    Option Str :=
  if countTokens T content ≤ maxTokens then some content
  else if countTokens T (compressCandidate T content maxTokens) ≤ maxTokens then
    some (compressCandidate T content maxTokens)
  else none

/-- ContextOptimizer._try_compress_context(context, max_tokens): below 50
token-units give up; otherwise compress the content and, on success, rebuild
the item with a one-step priority penalty (floored at 1), a 10% relevance
penalty, the recomputed token count and the added compressed tag. -/
def tryCompressContext (T : TokenCounter) (c : ContextItem) (maxTokens : Nat) :
    Option ContextItem :=
  if maxTokens < 50 then none
  else
    match compressContent T c.content maxTokens with
    | none => none
    | some cc =>
      some { id := c.id
             content := cc
             type := c.type
             priority := max 1 (c.priority - 1)
             timestamp := c.timestamp
             metadata := c.metadata
             token_count := countTokens T cc
             relevance_score := c.relevance_score * (9/10 : ℚ)
             expiry := c.expiry
             tags := c.tags ++ ["compressed".toList] }

/-
Eviction optimizer (src/30_context_management/context_optimizer.py,
class ContextOptimizer).
-/

/-- The optimizer's self.config dictionary.  max_age_hours is in hours. -/
structure OptConfig where
  minPriority : Int
  recencyWeight : ℚ
  relevanceThreshold : ℚ
  compressionRatio : ℚ
  preserveSystemContexts : Bool
  maxAgeHours : ℚ

/-- The source's default configuration values. -/
def defaultOptConfig : OptConfig :=
  { minPriority := 1
    recencyWeight := (3/10 : ℚ)
    relevanceThreshold := (1/2 : ℚ)
    compressionRatio := (7/10 : ℚ)
    preserveSystemContexts := true
    maxAgeHours := 168 }

/-- Type-bonus lookup table in _calculate_composite_scores (default 0.5). -/
def typeBonus (ty : Str) : ℚ :=
  if ty = "system".toList then 1
  else if ty = "instructions".toList then (9/10 : ℚ)
  else if ty = "conversation".toList then (7/10 : ℚ)
  else if ty = "memory".toList then (6/10 : ℚ)
  else if ty = "tool_result".toList then (1/2 : ℚ)
  else (1/2 : ℚ)

/-- Composite score of one item: 0.4*priority_score + recency_weight*recency
+ 0.2*relevance + 0.1*type_bonus, with recency = max 0 (1 - age_hours/max_age)
and age_hours = (now - timestamp)/3600 (timestamps in seconds). -/
def compositeScore (cfg : OptConfig) (now : ℚ) (c : ContextItem) : ℚ :=
  let ageHours := (now - c.timestamp) / 3600
  let recencyScore := max 0 (1 - ageHours / cfg.maxAgeHours)
  let priorityScore := (c.priority : ℚ) / 10
  priorityScore * (2/5 : ℚ) + recencyScore * cfg.recencyWeight
    + c.relevance_score * (1/5 : ℚ) + typeBonus c.type * (1/10 : ℚ)

/-- ContextOptimizer._calculate_composite_scores: overwrite each item's
relevance_score with its composite score (a documented side effect on the
non-system items passed in), then return the items sorted by the new score,
descending and stable. -/
def calcCompositeScores (cfg : OptConfig) (now : ℚ) (l : List ContextItem) :
    List ContextItem :=
  let updated := l.map (fun c => { c with relevance_score := compositeScore cfg now c })
  pySorted (fun a b => decide (b.relevance_score ≤ a.relevance_score)) updated

/-- Key (priority, timestamp) descending, stable: a may precede b. -/
def prioTimeDescLe (a b : ContextItem) : Bool :=
  decide (b.priority < a.priority) ||
    (decide (b.priority = a.priority) && decide (b.timestamp ≤ a.timestamp))

/-- ContextOptimizer._filter_active_contexts: drop expired items, and drop
non-system items of priority below 8 that are older than max_age_hours. -/
def activePred (cfg : OptConfig) (now : ℚ) (c : ContextItem) : Bool :=
  !isExpired c now &&
    !(decide (c.type ≠ "system".toList) && decide (c.priority < 8) &&
      decide (cfg.maxAgeHours * 3600 < now - c.timestamp))

def filterActive (cfg : OptConfig) (now : ℚ) (l : List ContextItem) :
    List ContextItem :=
  l.filter (activePred cfg now)

/-- The greedy fill shared by _optimize_by_priority and _optimize_by_recency
(and the store's window assembly): include items in order while the cumulative
token count stays within the target, stopping at the first item that does not
fit. -/
def greedySelect : List ContextItem → Nat → Nat → List ContextItem
  | [], _, _ => []
  | c :: rest, cur, target =>
    if cur + c.token_count ≤ target then
      c :: greedySelect rest (cur + c.token_count) target
    else []

/-- ContextOptimizer._optimize_by_priority: greedy fill over items sorted by
(priority, timestamp) descending. -/
def optimizeByPriority (contexts : List ContextItem) (target : Nat) :
    List ContextItem :=
  greedySelect (pySorted prioTimeDescLe contexts) 0 target

/-- ContextOptimizer._optimize_by_recency: greedy fill over items sorted by
timestamp descending. -/
def optimizeByRecency (contexts : List ContextItem) (target : Nat) :
    List ContextItem :=
  greedySelect
    (pySorted (fun a b => decide (b.timestamp ≤ a.timestamp)) contexts) 0 target

/-- Maximal runs of word characters, as matched by the regex \b\w+\b.
cur accumulates the current run in reverse. -/
def wordRunsAux (cur : Str) : Str → List Str
  | [] => if cur = [] then [] else [cur.reverse]
  | c :: rest =>
    if isWordChar c then wordRunsAux (c :: cur) rest
    else if cur = [] then wordRunsAux [] rest
    else cur.reverse :: wordRunsAux [] rest

def wordRuns (s : Str) : List Str := wordRunsAux [] s

/-- Number of occurrences of a word in a bag of words (Counter lookup). -/
def countWord (ws : List Str) (w : Str) : Nat :=
  (ws.filter (fun x => decide (x = w))).length

/-- ContextOptimizer._update_relevance_scores: build a frequency counter over
all words longer than 3 characters across all contents (lowercased), score each
item by min 1 (sum of its words' global frequencies / 100), and average that
into its relevance score. -/
def updateRelevanceScores (l : List ContextItem) : List ContextItem :=
  let bag := (l.map (fun c => (wordRuns (toLowerStr c.content)).filter
    (fun w => decide (3 < w.length)))).flatten
  l.map (fun c =>
    let ws := (wordRuns (toLowerStr c.content)).filter (fun w => decide (3 < w.length))
    let freqRaw : ℚ := ((ws.map (countWord bag)).sum : ℚ) / 100
    let freq := min 1 freqRaw
    { c with relevance_score := (c.relevance_score + freq) / 2 })

/-- The selection loop of _optimize_by_relevance: include items meeting the
relevance threshold while they fit; unlike the other greedy fills it does not
stop at the first unfitting item, only once the accumulated count reaches the
target. -/
def relevanceLoop (θ : ℚ) : List ContextItem → Nat → Nat → List ContextItem
  | [], _, _ => []
  | c :: rest, cur, target =>
    if θ ≤ c.relevance_score ∧ cur + c.token_count ≤ target then
      if target ≤ cur + c.token_count then [c]
      else c :: relevanceLoop θ rest (cur + c.token_count) target
    else
      if target ≤ cur then [] else relevanceLoop θ rest cur target

/-- ContextOptimizer._optimize_by_relevance: refresh relevance scores, sort by
relevance descending, then run the threshold-guarded fill. -/
def optimizeByRelevance (cfg : OptConfig) (contexts : List ContextItem)
    (target : Nat) : List ContextItem :=
  let updated := updateRelevanceScores contexts
  let sorted := pySorted
    (fun a b => decide (b.relevance_score ≤ a.relevance_score)) updated
  relevanceLoop cfg.relevanceThreshold sorted 0 target

/-- Item rebuild in _optimize_by_compression (lines 198-209): unlike
_try_compress_context it keeps priority and relevance unchanged. -/
def mkCompressedPlain (T : TokenCounter) (c : ContextItem) (cc : Str) :
    ContextItem :=
  { id := c.id
    content := cc
    type := c.type
    priority := c.priority
    timestamp := c.timestamp
    metadata := c.metadata
    token_count := countTokens T cc
    relevance_score := c.relevance_score
    expiry := c.expiry
    tags := c.tags ++ ["compressed".toList] }

/-- The loop of _optimize_by_compression: greedy fill; at the first item that
does not fit, if more than 100 token-units remain, attempt to compress that
single item into the remainder; in every case stop there. -/
def compressionLoop (T : TokenCounter) :
    List ContextItem → Nat → Nat → List ContextItem
  | [], _, _ => []
  | c :: rest, cur, target =>
    if cur + c.token_count ≤ target then
      c :: compressionLoop T rest (cur + c.token_count) target
    else
      let remaining := target - cur
      if 100 < remaining then
        match compressContent T c.content remaining with
        | some cc => [mkCompressedPlain T c cc]
        | none => []
      else []

/-- ContextOptimizer._optimize_by_compression: sort by (priority, timestamp)
descending, then run the compression-capable fill. -/
def optimizeByCompression (T : TokenCounter) (contexts : List ContextItem)
    (target : Nat) : List ContextItem :=
  compressionLoop T (pySorted prioTimeDescLe contexts) 0 target

/-- Group key of _group_contexts_semantically: type and sorted tags joined
with underscores. -/
def groupKey (c : ContextItem) : Str :=
  List.intercalate "_".toList (c.type :: pySorted strLe c.tags)

/-- Insertion-ordered grouping (defaultdict(list) preserves first-seen key
order; each item is appended to its key's group). -/
def groupByKey : List ContextItem → List (Str × List ContextItem) → List (Str × List ContextItem)
  | [], acc => acc
  | c :: rest, acc =>
    let k := groupKey c
    if (acc.map (·.1)).elem k then
      groupByKey rest (acc.map (fun kv => if kv.1 = k then (kv.1, kv.2 ++ [c]) else kv))
    else
      groupByKey rest (acc ++ [(k, [c])])

/-- ContextOptimizer._group_contexts_semantically. -/
def semanticGroups (l : List ContextItem) : List (List ContextItem) :=
  (groupByKey l []).map (·.2)

/-- Strict lexicographic greater on (priority, relevance_score, timestamp),
the max key of the group-representative selection. -/
def key3Gt (a b : ContextItem) : Bool :=
  decide (b.priority < a.priority) ||
    (decide (b.priority = a.priority) &&
      (decide (b.relevance_score < a.relevance_score) ||
        (decide (b.relevance_score = a.relevance_score) &&
          decide (b.timestamp < a.timestamp))))

/-- Python max(..., key=...): first element with maximal key (a later element
replaces the current one only when strictly greater). -/
def pyMaxBy (gt : ContextItem → ContextItem → Bool)
    (h : ContextItem) (t : List ContextItem) : ContextItem :=
  t.foldl (fun best x => if gt x best then x else best) h

/-- The max of priorities in a group (value max over a non-empty list). -/
def maxPrio : List ContextItem → Int
  | [] => 0
  | c :: rest => rest.foldl (fun m x => max m x.priority) c.priority

/-- The group loop of _optimize_by_semantic_grouping: greedy fill over the
best representative of each group (empty groups cannot arise from the
grouping; they are modelled as ending the loop, where the source's max would
raise). -/
def semanticLoop : List (List ContextItem) → Nat → Nat → List ContextItem
  | [], _, _ => []
  | g :: rest, cur, target =>
    match g with
    | [] => []
    | h :: t =>
      let best := pyMaxBy key3Gt h t
      if cur + best.token_count ≤ target then
        best :: semanticLoop rest (cur + best.token_count) target
      else []

/-- ContextOptimizer._optimize_by_semantic_grouping. -/
def optimizeBySemantic (contexts : List ContextItem) (target : Nat) :
    List ContextItem :=
  let groups := pySorted (fun a b => decide (maxPrio b ≤ maxPrio a))
    (semanticGroups contexts)
  semanticLoop groups 0 target

/-- The selection loop of _optimize_hybrid (lines 261-272): current starts at
the system token total while the budget compared against is
remaining = target - system tokens; an item that does not fit and does not
trigger compression is skipped without ending the loop. -/
def hybridLoop (T : TokenCounter) :
    List ContextItem → List ContextItem → Nat → Nat → List ContextItem
  | [], acc, _, _ => acc
  | c :: rest, acc, cur, remaining =>
    if cur + c.token_count ≤ remaining then
      hybridLoop T rest (acc ++ [c]) (cur + c.token_count) remaining
    else if 100 < remaining - cur then
      match tryCompressContext T c (remaining - cur) with
      | some cc => acc ++ [cc]
      | none => acc
    else hybridLoop T rest acc cur remaining

/-- ContextOptimizer._optimize_hybrid: drop inactive items, retain all system
items unconditionally (returning only them when they already exhaust the
target), score the rest and run the hybrid fill.  remaining_tokens <= 0 is the
Python integer test, modelled as target ≤ system tokens. -/
def optimizeHybrid (T : TokenCounter) (cfg : OptConfig)
    (contexts : List ContextItem) (target : Nat) (now : ℚ) :
    List ContextItem :=
  let active := filterActive cfg now contexts
  let sysCtxs := active.filter (fun c => decide (c.type = "system".toList))
  let nonSys := active.filter (fun c => decide (c.type ≠ "system".toList))
  let sysTokens := sumTok sysCtxs
  if target ≤ sysTokens then sysCtxs
  else
    let remaining := target - sysTokens
    let scored := calcCompositeScores cfg now nonSys
    hybridLoop T scored sysCtxs sysTokens remaining

/-- Optimization metrics (dataclass OptimizationMetrics).  The wall-clock
optimization_time field is not modelled. -/
structure OptMetrics where
  tokens_before : Nat
  tokens_after : Nat
  items_before : Nat
  items_after : Nat
  strategy_used : Str
  compression_ratio : ℚ
  deriving DecidableEq, Repr

/-- Metrics construction including the __post_init__ ratio. -/
def mkMetrics (tb ta ib ia : Nat) (strat : Str) : OptMetrics :=
  { tokens_before := tb
    tokens_after := ta
    items_before := ib
    items_after := ia
    strategy_used := strat
    compression_ratio := if 0 < tb then 1 - (ta : ℚ) / (tb : ℚ) else 0 }

/-- Strategy dispatch of optimize_contexts: the six named strategies; any
other name falls back to hybrid with a logged warning. -/
def dispatchStrategy (T : TokenCounter) (cfg : OptConfig)
    (contexts : List ContextItem) (target : Nat) (strategy : Str) (now : ℚ) :
    List ContextItem :=
  if strategy = "priority_based".toList then optimizeByPriority contexts target
  else if strategy = "recency_based".toList then optimizeByRecency contexts target
  else if strategy = "relevance_based".toList then optimizeByRelevance cfg contexts target
  else if strategy = "compression".toList then optimizeByCompression T contexts target
  else if strategy = "semantic_grouping".toList then optimizeBySemantic contexts target
  else optimizeHybrid T cfg contexts target now

/-- Effective target of optimize_contexts: target_tokens or int(max_tokens*0.9)
(Python treats both None and 0 as absent). -/
def effTarget (maxTokens : Nat) (target : Option Nat) : Nat :=
  match target with
  | none => 9 * maxTokens / 10
  | some t => if t = 0 then 9 * maxTokens / 10 else t

/-- ContextOptimizer.optimize_contexts: no-op with zero-cost metrics when the
input already fits the effective target; otherwise dispatch the strategy and
report metrics. -/
def optimizeContexts (T : TokenCounter) (cfg : OptConfig) (maxTokens : Nat)
    (contexts : List ContextItem) (target : Option Nat) (strategy : Str)
    (now : ℚ) : List ContextItem × OptMetrics :=
  let tgt := effTarget maxTokens target
  let tokensBefore := sumTok contexts
  if tokensBefore ≤ tgt then
    (contexts, mkMetrics tokensBefore tokensBefore contexts.length contexts.length
      "none".toList)
  else
    let optimized := dispatchStrategy T cfg contexts tgt strategy now
    (optimized, mkMetrics tokensBefore (sumTok optimized) contexts.length
      optimized.length strategy)

/-
Window builder (src/30_context_management/context_window.py,
class ContextWindow).
-/

/-- WindowSection dataclass.  priority is drawn from the fixed table
(values 10 down to 1, default 5); the integer division in the quota formula
is modelled over naturals. -/
structure WindowSection where
  name : Str
  content : Str
  priority : Nat
  token_count : Nat
  required : Bool
  deriving DecidableEq, Repr

/-- Sum of token_count over sections. -/
def sumTokW (l : List WindowSection) : Nat := (l.map (·.token_count)).sum

/-- Sum of priorities over sections. -/
def sumPrioW (l : List WindowSection) : Nat := (l.map (·.priority)).sum

/-- The iterative 10% shrink loop of _truncate_section: while the content
exceeds the allocation, cut it to int(len*0.9) characters.  Each iteration on
non-empty content strictly shrinks it and an empty content always fits
(count_tokens of empty text is 0), so a fuel of the initial length plus one
makes the structural recursion equivalent to the source's while loop. -/
def shrinkLoopF (T : TokenCounter) (maxTokens : Nat) : Nat → Str → Str
  | 0, content => content
  | fuel + 1, content =>
    if countTokens T content ≤ maxTokens then content
    else if content.length = 0 then content
    else shrinkLoopF T maxTokens fuel (content.take (9 * content.length / 10))

def shrinkLoop (T : TokenCounter) (content : Str) (maxTokens : Nat) : Str :=
  shrinkLoopF T maxTokens (content.length + 1) content

/-- The truncation marker appended by _truncate_section. -/
def truncatedMarker : Str := "\n[...truncated...]".toList

/-- ContextWindow._truncate_section(section, max_tokens): below 50 token-units
return none; otherwise truncate to the model limit with buffer 0, shrink
iteratively under the allocation, rename with a _truncated suffix, append the
marker only when the kept text is strictly shorter than the original, and
record the token count of the kept text (the marker is not counted). -/
def truncateSection (T : TokenCounter) (sec : WindowSection) (maxTokens : Nat) :
    Option WindowSection :=
  if maxTokens < 50 then none
  else
    let t0 := truncateToLimit T sec.content 0
    let t := shrinkLoop T t0 maxTokens
    some { name := sec.name ++ "_truncated".toList
           content := if t.length < sec.content.length then t ++ truncatedMarker else t
           priority := sec.priority
           token_count := countTokens T t
           required := sec.required }

/-- ContextWindow._truncate_sections: allocate each section the quota
int(max_tokens * priority / total_priority); keep a section outright when it
fits its quota, else shrink it (dropping it when its quota is under the
50-token minimum). -/
def truncateSections (T : TokenCounter) (sections : List WindowSection)
    (maxTokens : Nat) : List WindowSection :=
  if sections = [] then []
  else
    let totalPriority := sumPrioW sections
    sections.filterMap (fun sec =>
      let allocated := maxTokens * sec.priority / totalPriority
      if allocated < sec.token_count then truncateSection T sec allocated
      else some sec)

/-- The optional-section loop of _optimize_sections: greedy fill by priority;
at the first section that does not fit, attempt a truncated version when more
than 100 token-units remain, then stop unconditionally. -/
def optionalLoop (T : TokenCounter) :
    List WindowSection → Nat → Nat → List WindowSection
  | [], _, _ => []
  | sec :: rest, cur, maxTokens =>
    if cur + sec.token_count ≤ maxTokens then
      sec :: optionalLoop T rest (cur + sec.token_count) maxTokens
    else
      let remaining := maxTokens - cur
      if 100 < remaining then
        match truncateSection T sec remaining with
        | some t => [t]
        | none => []
      else []

/-- ContextWindow._optimize_sections: if the required sections alone overflow
the budget, return their proportionally truncated versions (optional sections
are dropped entirely); otherwise keep all required sections and add optional
ones by priority through the truncating greedy loop. -/
def optimizeSections (T : TokenCounter) (sections : List WindowSection)
    (maxTokens : Nat) : List WindowSection :=
  let required := sections.filter (·.required)
  let copt := sections.filter (fun s => !s.required)
  let requiredTokens := sumTokW required
  if maxTokens < requiredTokens then truncateSections T required maxTokens
  else
    let sortedOpt := pySorted (fun a b => decide (b.priority ≤ a.priority)) copt
    required ++ optionalLoop T sortedOpt requiredTokens maxTokens

/-
Context store (src/30_context_management/context_manager.py,
class ContextManager).  The contexts dict is an insertion-ordered association
list; the statistics dictionary holds only derived values (counts and sums
recomputed by _update_stats) and is not modelled as state.
-/

structure StoreState where
  maxTokens : Nat
  contexts : List (Str × ContextItem)
  contextOrder : List Str
  systemContexts : List Str
  conversationContexts : List Str
  memoryContexts : List Str
  toolContexts : List Str
  deriving DecidableEq, Repr

/-- The store as constructed by __init__ before loading. -/
def emptyStore (maxTokens : Nat) : StoreState :=
  { maxTokens := maxTokens
    contexts := []
    contextOrder := []
    systemContexts := []
    conversationContexts := []
    memoryContexts := []
    toolContexts := [] }

/-- ContextManager.get_total_tokens: token sum over all stored items. -/
def totalTokens (s : StoreState) : Nat :=
  sumTok (s.contexts.map (·.2))

/-- Token sum over the stored items that are not expired at the given time. -/
def nonExpiredTokens (s : StoreState) (now : ℚ) : Nat :=
  sumTok ((s.contexts.map (·.2)).filter (fun c => !isExpired c now))

/-- ContextManager._categorize_context. -/
def categorizeContext (s : StoreState) (c : ContextItem) : StoreState :=
  if c.type = "system".toList then
    { s with systemContexts := s.systemContexts ++ [c.id] }
  else if c.type = "user".toList ∨ c.type = "assistant".toList then
    { s with conversationContexts := s.conversationContexts ++ [c.id] }
  else if c.type = "memory".toList then
    { s with memoryContexts := s.memoryContexts ++ [c.id] }
  else if c.type = "tool_result".toList then
    { s with toolContexts := s.toolContexts ++ [c.id] }
  else s

/-- ContextManager.remove_context: when the id is present, delete it from the
item map, the order list and every category list (each removal is guarded by a
membership test in the source, so absent entries are no-ops). -/
def removeContext (s : StoreState) (cid : Str) : StoreState :=
  if (s.contexts.map (·.1)).elem cid then
    { s with contexts := s.contexts.filter (fun kv => decide (kv.1 ≠ cid))
             contextOrder := removeFirst s.contextOrder cid
             systemContexts := removeFirst s.systemContexts cid
             conversationContexts := removeFirst s.conversationContexts cid
             memoryContexts := removeFirst s.memoryContexts cid
             toolContexts := removeFirst s.toolContexts cid }
  else s

/-- ContextManager._remove_expired_contexts. -/
def removeExpiredContexts (s : StoreState) (now : ℚ) : StoreState :=
  let expiredIds := (s.contexts.filter (fun kv => isExpired kv.2 now)).map (·.1)
  expiredIds.foldl removeContext s

/-- The keep loop of ContextManager.optimize_context: ids of the greedy
prefix of the importance-sorted items. -/
def greedyKeepIds : List ContextItem → Nat → Nat → List Str
  | [], _, _ => []
  | c :: rest, cur, target =>
    if cur + c.token_count ≤ target then
      c.id :: greedyKeepIds rest (cur + c.token_count) target
    else []

/-- ContextManager.optimize_context(target_tokens): default (and Python-falsy
0) target is int(max_tokens*0.9); a no-op when the current total fits;
otherwise purge expired items, sort by (priority, timestamp) descending,
keep the greedy prefix and remove everything else.  The source iterates the
removal set in unspecified Python set order; removals commute, and the model
removes in stored key order.  storeTarget is the effective target. -/
def storeTarget (s : StoreState) (target : Option Nat) : Nat :=
  match target with
  | none => 9 * s.maxTokens / 10
  | some t => if t = 0 then 9 * s.maxTokens / 10 else t

def storeOptimize (s : StoreState) (target : Option Nat) (now : ℚ) :
    StoreState :=
  let tgt := storeTarget s target
  if totalTokens s ≤ tgt then s
  else
    let s1 := removeExpiredContexts s now
    let sorted := pySorted prioTimeDescLe (s1.contexts.map (·.2))
    let keep := greedyKeepIds sorted 0 tgt
    let rids := (s1.contexts.map (·.1)).filter (fun k => !keep.elem k)
    rids.foldl removeContext s1

/-- ContextManager.add_context: the safety check's boolean result is computed
and discarded by the source (line 95); the item is always created, inserted,
categorized, and auto-optimization runs when the total exceeds max_tokens.
The fresh uuid4 identifier is supplied as newId; the returned string is the
new item's id (the source's except branch that returns the empty string is
unreachable for the modelled operations, which do not raise). -/
def addContext (T : TokenCounter) (s : StoreState) (content ty : Str)
    (priority : Int) (metadata : List (Str × Str)) (tags : List Str)
    (expiry : Option ℚ) (now : ℚ) (newId : Str) : StoreState × Str :=
  let _safe := isSafeString content
  let tokenCount := countTokens T content
  let item : ContextItem :=
    { id := newId
      content := content
      type := ty
      priority := priority
      timestamp := now
      metadata := metadata
      token_count := tokenCount
      relevance_score := 1
      expiry := expiry
      tags := tags }
  let s1 := { s with contexts := setKey s.contexts newId item
                     contextOrder := s.contextOrder ++ [newId] }
  let s2 := categorizeContext s1 item
  let s3 := if s.maxTokens < totalTokens s2 then storeOptimize s2 none now else s2
  (s3, newId)

/-- ContextManager.get_contexts_by_type (no expiry filtering). -/
def getContextsByType (s : StoreState) (ty : Str) : List ContextItem :=
  (s.contexts.map (·.2)).filter (fun c => decide (c.type = ty))

/-- ContextManager.get_contexts_by_priority: items at or above the minimum
priority, sorted by (priority, timestamp) descending (no expiry filtering). -/
def getContextsByPriority (s : StoreState) (minPriority : Int) :
    List ContextItem :=
  pySorted prioTimeDescLe
    ((s.contexts.map (·.2)).filter (fun c => decide (minPriority ≤ c.priority)))

/-- ContextManager.get_recent_contexts: items newer than the cutoff, sorted by
timestamp descending, optionally capped (a limit of 0 is Python-falsy and
means no cap; no expiry filtering). -/
def getRecentContexts (s : StoreState) (hours : ℚ) (limit : Option Nat)
    (now : ℚ) : List ContextItem :=
  let cutoff := now - hours * 3600
  let l := pySorted (fun a b => decide (b.timestamp ≤ a.timestamp))
    ((s.contexts.map (·.2)).filter (fun c => decide (cutoff < c.timestamp)))
  match limit with
  | none => l
  | some n => if n = 0 then l else l.take n

/-- The per-item filter of ContextManager.search_contexts: skip expired items,
then apply the optional type and tag filters (None and empty values are
Python-falsy and disable the filter), then match the lowercased query as a
substring of the lowercased content. -/
def searchMatch (query : Str) (ctype : Option Str) (tags : Option (List Str))
    (now : ℚ) (c : ContextItem) : Bool :=
  if isExpired c now then false
  else if (match ctype with
           | none => false
           | some ty => ty ≠ [] && decide (c.type ≠ ty)) then false
  else if (match tags with
           | none => false
           | some ts => ts ≠ [] && !(ts.any (fun t => c.tags.elem t))) then false
  else containsSub (toLowerStr c.content) (toLowerStr query)

/-- ContextManager.search_contexts, results sorted by (priority, timestamp)
descending. -/
def searchContexts (s : StoreState) (query : Str) (ctype : Option Str)
    (tags : Option (List Str)) (now : ℚ) : List ContextItem :=
  pySorted prioTimeDescLe
    ((s.contexts.map (·.2)).filter (searchMatch query ctype tags now))

/-- The item selection of ContextManager.get_context_window: greedy fill over
the non-expired items sorted by (priority, timestamp) descending (a max_tokens
argument of 0 is Python-falsy and means the store's own limit). -/
def windowItems (s : StoreState) (maxTokens : Option Nat) (now : ℚ) :
    List ContextItem :=
  let mt := match maxTokens with
    | none => s.maxTokens
    | some m => if m = 0 then s.maxTokens else m
  greedySelect
    (pySorted prioTimeDescLe
      ((s.contexts.map (·.2)).filter (fun c => !isExpired c now))) 0 mt

/-- ContextManager._format_context_item. -/
def formatContextItem (c : ContextItem) : Str :=
  let header0 := ('[' :: toUpperStr c.type) ++ [']'] ++
    (if 1 < c.priority then (' ' :: '#' :: (toString c.priority).toList) else [])
  let header := header0 ++
    (if c.tags ≠ [] then " Tags: ".toList ++ List.intercalate ", ".toList c.tags
     else [])
  header ++ ('\n' :: c.content)

/-- ContextManager.get_context_window: the formatted rendering of the window
items joined by blank lines. -/
def getContextWindow (s : StoreState) (maxTokens : Option Nat) (now : ℚ) :
    Str :=
  List.intercalate "\n\n".toList
    ((windowItems s maxTokens now).map formatContextItem)

/-
Snapshot loading (ContextManager._load_context together with
FileHandler.load_json).  A snapshot is JSON; its context entries are dicts fed
to ContextItem.from_dict = ContextItem(**data).  That call raises TypeError on
any key that is not a dataclass field, and __post_init__ raises ValueError on
a malformed ISO timestamp string; datetime.fromisoformat is an external
collaborator and is modelled as an abstract parser parameter.  Dataclass
construction performs no type checking, so a stored value of the wrong type is
kept as-is by the source; such ill-typed items cannot inhabit the typed model
and are modelled as parse failures as well.
-/

inductive RawVal where
  | vstr (s : Str)
  | vint (n : Int)
  | vrat (q : ℚ)
  | vnull
  | vlist (l : List Str)
  | vdict (d : List (Str × Str))
  deriving DecidableEq, Repr

abbrev RawItem := List (Str × RawVal)

/-- A decoded snapshot file: data.get('contexts', {}) and
data.get('context_order', []).  The saved stats and agent_id are not state of
the model. -/
structure RawSnapshot where
  contexts : List (Str × RawItem)
  contextOrder : List Str
  deriving DecidableEq, Repr

/-- The dataclass defaults of ContextItem.  The source draws a fresh uuid4 as
the default id and datetime.now() as the default timestamp; snapshot entries
written by save_context always carry both, and the model fixes the defaults to
the empty id and instant 0. -/
def defaultItem : ContextItem :=
  { id := []
    content := []
    type := "general".toList
    priority := 1
    timestamp := 0
    metadata := []
    token_count := 0
    relevance_score := 1
    expiry := none
    tags := [] }

/-- Apply one keyword argument of ContextItem(**data), including the
__post_init__ ISO parsing for string-valued timestamp and expiry.  none is a
raised TypeError (unknown key) or ValueError (malformed timestamp), or an
ill-typed value (see the section comment). -/
def applyField (iso : Str → Option ℚ) (c : ContextItem) :
    Str × RawVal → Option ContextItem
  | (k, v) =>
    if k = "id".toList then
      match v with | .vstr s => some { c with id := s } | _ => none
    else if k = "content".toList then
      match v with | .vstr s => some { c with content := s } | _ => none
    else if k = "type".toList then
      match v with | .vstr s => some { c with type := s } | _ => none
    else if k = "priority".toList then
      match v with | .vint n => some { c with priority := n } | _ => none
    else if k = "timestamp".toList then
      match v with
      | .vstr s => (iso s).map (fun q => { c with timestamp := q })
      | .vrat q => some { c with timestamp := q }
      | _ => none
    else if k = "metadata".toList then
      match v with | .vdict d => some { c with metadata := d } | _ => none
    else if k = "token_count".toList then
      match v with | .vint n => some { c with token_count := n.toNat } | _ => none
    else if k = "relevance_score".toList then
      match v with | .vrat q => some { c with relevance_score := q } | _ => none
    else if k = "expiry".toList then
      match v with
      | .vnull => some { c with expiry := none }
      | .vstr s => (iso s).map (fun q => { c with expiry := some q })
      | .vrat q => some { c with expiry := some q }
      | _ => none
    else if k = "tags".toList then
      match v with | .vlist l => some { c with tags := l } | _ => none
    else none

/-- ContextItem.from_dict. -/
def fromDict (iso : Str → Option ℚ) (raw : RawItem) : Option ContextItem :=
  raw.foldl (fun acc kv => acc.bind (fun c => applyField iso c kv))
    (some defaultItem)

/-- The entry loop of _load_context: process snapshot entries in order,
stopping at the first failing entry; entries already processed stay
inserted (the surrounding try/except does not roll them back). -/
def loadEntries (iso : Str → Option ℚ) :
    List (Str × RawItem) → List (Str × ContextItem) →
    List (Str × ContextItem) × Bool
  | [], acc => (acc, true)
  | (k, r) :: rest, acc =>
    match fromDict iso r with
    | some item => loadEntries iso rest (setKey acc k item)
    | none => (acc, false)

/-- What _load_context receives: a missing file, an unreadable file
(load_json caught an exception and returned None, or the decoded data was
falsy), or a decoded snapshot. -/
inductive LoadInput where
  | missing
  | unreadable
  | snap (d : RawSnapshot)

/-- ContextManager._load_context: a missing file returns true with the store
untouched; an unreadable file returns false with the store untouched; a
decoded snapshot is loaded entry by entry, then the order list is set and the
category lists are rebuilt — unless an entry fails, in which case the
exception is caught, false is returned and the partially loaded items remain
while the order and categories are never written. -/
def loadContext (iso : Str → Option ℚ) (input : LoadInput) (s : StoreState) :
    StoreState × Bool :=
  match input with
  | .missing => (s, true)
  | .unreadable => (s, false)
  | .snap d =>
    match loadEntries iso d.contexts s.contexts with
    | (ctxs, true) =>
      let s1 := { s with contexts := ctxs, contextOrder := d.contextOrder }
      ((ctxs.map (·.2)).foldl categorizeContext s1, true)
    | (ctxs, false) => ({ s with contexts := ctxs }, false)

/-
Concrete instances used by the theorems below: the A/B/C scenario of the
spec's testable properties, an expired item, a partially corrupt snapshot,
and the two 900-token required window sections.
-/

/-- Scenario item A: priority 9, 800 tokens, type system, fresh. -/
def itemA : ContextItem :=
  ⟨"A".toList, "a".toList, "system".toList, 9, 0, [], 800, 1, none, []⟩

/-- Scenario item B: priority 5, 500 tokens, type conversation, fresh. -/
def itemB : ContextItem :=
  ⟨"B".toList, "b".toList, "conversation".toList, 5, 0, [], 500, 1, none, []⟩

/-- Scenario item C: priority 3, 400 tokens, type memory, fresh. -/
def itemC : ContextItem :=
  ⟨"C".toList, "c".toList, "memory".toList, 3, 0, [], 400, 1, none, []⟩

/-- A compressible item: 100 characters (25 fallback tokens). -/
def itemD : ContextItem :=
  ⟨"D".toList, List.replicate 100 'a', "conversation".toList, 5, 0, [], 25, 1,
    none, ["x".toList]⟩

/-- An item whose expiry (instant -1) lies before the reference time 0. -/
def itemE : ContextItem :=
  ⟨"E".toList, "hello".toList, "general".toList, 5, 0, [], 2, 1, some (-1), []⟩

/-- A store holding only the expired item. -/
def storeE : StoreState :=
  { emptyStore 1000 with contexts := [("E".toList, itemE)] }

/-- A token counter measuring four token-units per character (model limit as
the default); with it a 225-character section measures 900 token-units. -/
def TCchar4 : TokenCounter := ⟨fun s => 4 * s.length, 200000⟩

/-- Required window section of 900 token-units (under TCchar4). -/
def secA : WindowSection :=
  ⟨"alpha".toList, List.replicate 225 'a', 5, 900, true⟩

/-- Second required window section of 900 token-units, equal priority. -/
def secB : WindowSection :=
  ⟨"beta".toList, List.replicate 225 'b', 5, 900, true⟩

/-- An optional window section present in the required-overflow scenario. -/
def secC : WindowSection :=
  ⟨"gamma".toList, List.replicate 50 'c', 3, 200, false⟩

/-- What _truncate_sections makes of secA under quota 500 and TCchar4: six
10%-shrink steps (225 to 202, 181, 162, 145, 130, 117 characters, 468
token-units), the _truncated name suffix and the appended marker. -/
def secATrunc : WindowSection :=
  ⟨"alpha_truncated".toList, List.replicate 117 'a' ++ truncatedMarker, 5, 468,
    true⟩

/-- The same truncation of secB. -/
def secBTrunc : WindowSection :=
  ⟨"beta_truncated".toList, List.replicate 117 'b' ++ truncatedMarker, 5, 468,
    true⟩

/-- A large high-priority required section: 600 token-units under TCchar4. -/
def secP : WindowSection :=
  ⟨"main".toList, List.replicate 150 'p', 10, 600, true⟩

/-- A small low-priority required section: 100 token-units under TCchar4.
Under an available budget of 400 next to secP its quota is
int(400*1/11) = 36, below the 50-token minimum. -/
def secQ : WindowSection :=
  ⟨"side".toList, List.replicate 25 'q', 1, 100, true⟩

/-- A well-formed snapshot entry. -/
def rawGood : RawItem :=
  [("id".toList, .vstr "a".toList), ("content".toList, .vstr "hi".toList),
   ("token_count".toList, .vint 5)]

/-- A corrupt snapshot entry: bad_key is not a ContextItem field, so
ContextItem(**data) raises TypeError on it. -/
def rawBad : RawItem := [("bad_key".toList, .vint 1)]

/-- A snapshot whose second context entry is corrupt. -/
def snapMixed : RawSnapshot :=
  ⟨[("a".toList, rawGood), ("b".toList, rawBad)], ["a".toList, "b".toList]⟩

/-- An ISO parser rejecting every string (the snapshots above carry no
string-valued timestamps, so any parser gives the same result). -/
def isoNone : Str → Option ℚ := fun _ => none

/-- The item the well-formed snapshot entry decodes to. -/
def itemGoodLoaded : ContextItem :=
  { defaultItem with id := "a".toList, content := "hi".toList, token_count := 5 }

/-- A content string the safety checker rejects (contains a script tag). -/
def unsafeContent : Str := "<script>alert(1)</script>".toList

/-- A 240-character content with no whitespace and no filler words: 60
fallback tokens, far below the model limit. -/
def content240 : Str := List.replicate 240 'a'

/-- The item _try_compress_context builds from itemD with a 60-token budget:
content fits after the no-op compression, priority drops one step, relevance
drops 10%, and the compressed tag is appended. -/
def itemDCompressed : ContextItem :=
  ⟨"D".toList, List.replicate 100 'a', "conversation".toList, 4, 0, [], 25,
    (9/10 : ℚ), none, ["x".toList, "compressed".toList]⟩

/-- The store well-formedness every reachable store satisfies: the item map's
keys are distinct (Python dict keys) and each stored item's id field equals
its key. -/
def storeWF (s : StoreState) : Prop :=
  (s.contexts.map (·.1)).Nodup ∧ ∀ kv ∈ s.contexts, kv.2.id = kv.1

instance (s : StoreState) : Decidable (storeWF s) := by
  unfold storeWF
  infer_instance

/-
Helper lemmas (shared by several claim theorems).
-/

/-- Whatever _compress_content returns fits the token budget it was given. -/
theorem compressContent_le {T : TokenCounter} {content c : Str} {m : Nat}
    (h : compressContent T content m = some c) : countTokens T c ≤ m := by
  rw [compressContent] at h
  split at h
  next h1 =>
    rw [Option.some.injEq] at h
    rw [← h]
    exact h1
  next h1 =>
    split at h
    next h2 =>
      rw [Option.some.injEq] at h
      rw [← h]
      exact h2
    next h2 =>
      exact Option.noConfusion h

/-- Whatever _try_compress_context returns carries a token_count within the
budget it was given. -/
theorem tryCompress_tok_le {T : TokenCounter} {c out : ContextItem} {m : Nat}
    (h : tryCompressContext T c m = some out) : out.token_count ≤ m := by
  rw [tryCompressContext] at h
  split at h
  next h1 =>
    exact Option.noConfusion h
  next h1 =>
    cases hc : compressContent T c.content m with
    | none =>
      rw [hc] at h
      exact Option.noConfusion h
    | some cc =>
      rw [hc] at h
      rw [Option.some.injEq] at h
      rw [← h]
      exact compressContent_le hc

theorem sumTok_append (l1 l2 : List ContextItem) :
    sumTok (l1 ++ l2) = sumTok l1 + sumTok l2 := by
  simp [sumTok]

theorem sumTok_sublist {l1 l2 : List ContextItem} (h : List.Sublist l1 l2) :
    sumTok l1 ≤ sumTok l2 :=
  sum_le_of_sublist (h.map (·.token_count))

theorem sumTok_subperm {l1 l2 : List ContextItem} (h : List.Subperm l1 l2) :
    sumTok l1 ≤ sumTok l2 := by
  rcases h with ⟨u, hp, hs⟩
  calc sumTok l1 = sumTok u := by
        simp only [sumTok]
        exact ((hp.map (·.token_count)).sum_eq).symm
    _ ≤ sumTok l2 := sumTok_sublist hs

/-- The break-style greedy fill keeps the running total within the target. -/
theorem greedySelect_le (l : List ContextItem) (cur target : Nat)
    (h : cur ≤ target) : cur + sumTok (greedySelect l cur target) ≤ target := by
  induction l generalizing cur with
  | nil => simpa [greedySelect, sumTok]
  | cons c rest ih =>
    simp only [greedySelect]
    split_ifs with h1
    · have := ih (cur + c.token_count) h1
      simp only [sumTok, List.map_cons, List.sum_cons] at *
      omega
    · simpa [sumTok]

theorem greedySelect_sublist (l : List ContextItem) (cur target : Nat) :
    List.Sublist (greedySelect l cur target) l := by
  induction l generalizing cur with
  | nil => simp [greedySelect]
  | cons c rest ih =>
    simp only [greedySelect]
    split_ifs with h1
    · exact (ih (cur + c.token_count)).cons₂ c
    · exact List.nil_sublist _

/-- The relevance fill keeps the running total within the target. -/
theorem relevanceLoop_le (θ : ℚ) (l : List ContextItem) (cur target : Nat)
    (h : cur ≤ target) :
    cur + sumTok (relevanceLoop θ l cur target) ≤ target := by
  induction l generalizing cur with
  | nil => simpa [relevanceLoop, sumTok]
  | cons c rest ih =>
    simp only [relevanceLoop]
    split_ifs with h1 h2 h3
    · simp only [sumTok, List.map_cons, List.map_nil, List.sum_cons, List.sum_nil]
      omega
    · have := ih (cur + c.token_count) h1.2
      simp only [sumTok, List.map_cons, List.sum_cons] at *
      omega
    · simpa [sumTok]
    · exact ih cur h

/-- The compression-capable fill keeps the running total within the target. -/
theorem compressionLoop_le (T : TokenCounter) (l : List ContextItem)
    (cur target : Nat) (h : cur ≤ target) :
    cur + sumTok (compressionLoop T l cur target) ≤ target := by
  induction l generalizing cur with
  | nil => simpa [compressionLoop, sumTok]
  | cons c rest ih =>
    simp only [compressionLoop]
    split_ifs with h1 h2
    · have := ih (cur + c.token_count) h1
      simp only [sumTok, List.map_cons, List.sum_cons] at *
      omega
    · cases hc : compressContent T c.content (target - cur) with
      | none => simpa [hc, sumTok]
      | some cc =>
        have hle := compressContent_le hc
        simp only [hc, sumTok, List.map_cons, List.map_nil, List.sum_cons,
          List.sum_nil, mkCompressedPlain]
        omega
    · simpa [sumTok]

/-- The semantic-group fill keeps the running total within the target. -/
theorem semanticLoop_le (gs : List (List ContextItem)) (cur target : Nat)
    (h : cur ≤ target) :
    cur + sumTok (semanticLoop gs cur target) ≤ target := by
  induction gs generalizing cur with
  | nil => simpa [semanticLoop, sumTok]
  | cons g rest ih =>
    cases g with
    | nil => simpa [semanticLoop, sumTok]
    | cons x t =>
      simp only [semanticLoop]
      split_ifs with h1
      · have := ih (cur + (pyMaxBy key3Gt x t).token_count) h1
        simp only [sumTok, List.map_cons, List.sum_cons] at *
        omega
      · simpa [sumTok]

/-- The hybrid fill never pushes the total past max cur remaining, provided
the accumulator total matches cur. -/
theorem hybridLoop_le (T : TokenCounter) (l acc : List ContextItem)
    (cur remaining : Nat) (h : sumTok acc = cur) :
    sumTok (hybridLoop T l acc cur remaining) ≤ max cur remaining := by
  induction l generalizing acc cur with
  | nil =>
    simp only [hybridLoop, h.symm]
    omega
  | cons c rest ih =>
    simp only [hybridLoop]
    split_ifs with h1 h2
    · have hacc : sumTok (acc ++ [c]) = cur + c.token_count := by
        rw [sumTok_append, h]
        simp [sumTok]
      have hrec := ih (acc ++ [c]) (cur + c.token_count) hacc
      omega
    · cases hc : tryCompressContext T c (remaining - cur) with
      | none =>
        rw [h] at *
        omega
      | some cc =>
        have hcc := tryCompress_tok_le hc
        have hacc : sumTok (acc ++ [cc]) = cur + cc.token_count := by
          rw [sumTok_append, h]
          simp [sumTok]
        rw [hacc]
        omega
    · exact ih acc cur h

/-- System-item predicate of the hybrid strategy. -/
def isSysB (c : ContextItem) : Bool := decide (c.type = "system".toList)

/-- The hybrid result never exceeds the target when the system items present
in the input fit it. -/
theorem optimizeHybrid_le (T : TokenCounter) (cfg : OptConfig)
    (l : List ContextItem) (tgt : Nat) (now : ℚ)
    (h : sumTok (l.filter isSysB) ≤ tgt) :
    sumTok (optimizeHybrid T cfg l tgt now) ≤ tgt := by
  have hsub : List.Sublist ((filterActive cfg now l).filter isSysB)
      (l.filter isSysB) :=
    (List.filter_sublist l).filter isSysB
  have hsys : sumTok ((filterActive cfg now l).filter isSysB) ≤ tgt :=
    le_trans (sumTok_sublist hsub) h
  rw [optimizeHybrid]
  split
  next h1 => exact hsys
  next h1 =>
    dsimp only
    have hloop := hybridLoop_le T
      (calcCompositeScores cfg now
        ((filterActive cfg now l).filter (fun c => decide (c.type ≠ "system".toList))))
      ((filterActive cfg now l).filter (fun c => decide (c.type = "system".toList)))
      (sumTok ((filterActive cfg now l).filter (fun c => decide (c.type = "system".toList))))
      (tgt - sumTok ((filterActive cfg now l).filter (fun c => decide (c.type = "system".toList))))
      rfl
    have h1' : ¬ (tgt ≤ sumTok ((filterActive cfg now l).filter
        (fun c => decide (c.type = "system".toList)))) := h1
    omega

/-- Every strategy's selection (including the hybrid fallback for unknown
names) stays within the target when the input's system items fit it. -/
theorem dispatch_le (T : TokenCounter) (cfg : OptConfig)
    (l : List ContextItem) (tgt : Nat) (strat : Str) (now : ℚ)
    (h : sumTok (l.filter isSysB) ≤ tgt) :
    sumTok (dispatchStrategy T cfg l tgt strat now) ≤ tgt := by
  rw [dispatchStrategy]
  split_ifs with h1 h2 h3 h4 h5
  · have := greedySelect_le (pySorted prioTimeDescLe l) 0 tgt (Nat.zero_le _)
    rw [optimizeByPriority]
    omega
  · have := greedySelect_le
      (pySorted (fun a b => decide (b.timestamp ≤ a.timestamp)) l) 0 tgt
      (Nat.zero_le _)
    rw [optimizeByRecency]
    omega
  · have := relevanceLoop_le cfg.relevanceThreshold
      (pySorted (fun a b => decide (b.relevance_score ≤ a.relevance_score))
        (updateRelevanceScores l)) 0 tgt (Nat.zero_le _)
    rw [optimizeByRelevance]
    omega
  · have := compressionLoop_le T (pySorted prioTimeDescLe l) 0 tgt (Nat.zero_le _)
    rw [optimizeByCompression]
    omega
  · have := semanticLoop_le
      (pySorted (fun a b => decide (maxPrio b ≤ maxPrio a)) (semanticGroups l))
      0 tgt (Nat.zero_le _)
    rw [optimizeBySemantic]
    omega
  · exact optimizeHybrid_le T cfg l tgt now h

/-- The shrink loop's result fits once the fuel exceeds the content length:
non-empty content strictly shrinks each iteration, and empty content always
fits because count_tokens of empty text is 0. -/
theorem shrinkLoopF_le (T : TokenCounter) (m : Nat) :
    ∀ (fuel : Nat) (content : Str), content.length < fuel →
      countTokens T (shrinkLoopF T m fuel content) ≤ m := by
  intro fuel
  induction fuel with
  | zero =>
    intro content h
    omega
  | succ f ih =>
    intro content h
    rw [shrinkLoopF]
    split_ifs with h1 h2
    · exact h1
    · have hz : content = [] := List.length_eq_zero.mp h2
      rw [hz] at h1
      exact absurd (by rw [countTokens]; simp) h1
    · apply ih
      rw [List.length_take]
      omega

theorem shrinkLoop_le (T : TokenCounter) (content : Str) (m : Nat) :
    countTokens T (shrinkLoop T content m) ≤ m :=
  shrinkLoopF_le T m (content.length + 1) content (Nat.lt_succ_self _)

/-- Whatever _truncate_section returns fits its allocation and keeps the
section's priority and required flag. -/
theorem truncateSection_spec {T : TokenCounter} {sec out : WindowSection}
    {alloc : Nat} (h : truncateSection T sec alloc = some out) :
    out.token_count ≤ alloc ∧ out.required = sec.required ∧
      out.priority = sec.priority := by
  rw [truncateSection] at h
  split at h
  next h1 => exact Option.noConfusion h
  next h1 =>
    rw [Option.some.injEq] at h
    rw [← h]
    exact ⟨shrinkLoop_le T _ alloc, rfl, rfl⟩

/-- Optimization is a no-op when the input already fits the effective
target. -/
theorem optimizeContexts_fits (T : TokenCounter) (cfg : OptConfig) (mx : Nat)
    (l : List ContextItem) (target : Option Nat) (strat : Str) (now : ℚ)
    (h : sumTok l ≤ effTarget mx target) :
    (optimizeContexts T cfg mx l target strat now).1 = l := by
  rw [optimizeContexts]
  dsimp only
  rw [if_pos h]

/-- Over the effective target, optimization dispatches the strategy. -/
theorem optimizeContexts_over (T : TokenCounter) (cfg : OptConfig) (mx : Nat)
    (l : List ContextItem) (target : Option Nat) (strat : Str) (now : ℚ)
    (h : ¬ sumTok l ≤ effTarget mx target) :
    (optimizeContexts T cfg mx l target strat now).1 =
      dispatchStrategy T cfg l (effTarget mx target) strat now := by
  rw [optimizeContexts]
  dsimp only
  rw [if_neg h]

/-- In the non-system-dominated case the hybrid result fits the target. -/
theorem optimizeHybrid_lt (T : TokenCounter) (cfg : OptConfig)
    (l : List ContextItem) (tgt : Nat) (now : ℚ)
    (h : sumTok ((filterActive cfg now l).filter
      (fun c => decide (c.type = "system".toList))) < tgt) :
    sumTok (optimizeHybrid T cfg l tgt now) ≤ tgt := by
  rw [optimizeHybrid]
  dsimp only
  rw [if_neg (not_le.mpr h)]
  have hloop := hybridLoop_le T
    (calcCompositeScores cfg now
      ((filterActive cfg now l).filter (fun c => decide (c.type ≠ "system".toList))))
    ((filterActive cfg now l).filter (fun c => decide (c.type = "system".toList)))
    (sumTok ((filterActive cfg now l).filter (fun c => decide (c.type = "system".toList))))
    (tgt - sumTok ((filterActive cfg now l).filter (fun c => decide (c.type = "system".toList))))
    rfl
  omega

/-- Running hybrid on a list of active system items at or above the target
returns it unchanged: the filters fix it and the system-dominated branch
fires again. -/
theorem optimizeHybrid_on_system (T : TokenCounter) (cfg : OptConfig)
    (sl : List ContextItem) (tgt : Nat) (now : ℚ)
    (h1 : ∀ x ∈ sl, activePred cfg now x = true)
    (h2 : ∀ x ∈ sl, x.type = "system".toList)
    (h3 : tgt ≤ sumTok sl) :
    optimizeHybrid T cfg sl tgt now = sl := by
  have hact : filterActive cfg now sl = sl := by
    rw [filterActive]
    exact List.filter_eq_self.mpr h1
  have hsys : sl.filter (fun c => decide (c.type = "system".toList)) = sl :=
    List.filter_eq_self.mpr (fun x hx => by
      rw [decide_eq_true_eq]
      exact h2 x hx)
  rw [optimizeHybrid, hact, hsys]
  dsimp only
  rw [if_pos h3]

/-
Store lemmas for the soft budget invariant.
-/

theorem removeContext_contexts (s : StoreState) (cid : Str) :
    (removeContext s cid).contexts =
      s.contexts.filter (fun kv => decide (kv.1 ≠ cid)) := by
  rw [removeContext]
  split
  next h => rfl
  next h =>
    refine (List.filter_eq_self.mpr ?_).symm
    intro kv hkv
    rw [decide_eq_true_eq]
    intro hk
    exact h (List.elem_iff.mpr (hk ▸ List.mem_map_of_mem (·.1) hkv))

theorem removeContext_maxTokens (s : StoreState) (cid : Str) :
    (removeContext s cid).maxTokens = s.maxTokens := by
  rw [removeContext]
  split
  next h => rfl
  next h => rfl

theorem removeFold_contexts (rids : List Str) :
    ∀ (s : StoreState), (rids.foldl removeContext s).contexts =
      s.contexts.filter (fun kv => decide (kv.1 ∉ rids)) := by
  induction rids with
  | nil =>
    intro s
    refine (List.filter_eq_self.mpr ?_).symm
    intro kv _
    simp
  | cons r rs ih =>
    intro s
    rw [List.foldl_cons, ih, removeContext_contexts, List.filter_filter]
    refine List.filter_congr ?_
    intro kv _
    simp only [List.mem_cons, decide_not, Bool.and_eq_true, Bool.not_eq_true',
      decide_eq_true_eq, decide_eq_false_iff_not]
    by_cases h1 : kv.1 = r
    · simp [h1]
    · by_cases h2 : kv.1 ∈ rs
      · simp [h1, h2]
      · simp [h1, h2]

theorem removeFold_maxTokens (rids : List Str) :
    ∀ (s : StoreState), (rids.foldl removeContext s).maxTokens = s.maxTokens := by
  induction rids with
  | nil => intro s; rfl
  | cons r rs ih =>
    intro s
    rw [List.foldl_cons, ih, removeContext_maxTokens]

/-- Store well-formedness survives any sequence of removals, since the
resulting item map is a filtered sub-map. -/
theorem storeWF_of_filter (s : StoreState) (p : Str × ContextItem → Bool)
    (h : storeWF s) :
    ((s.contexts.filter p).map (·.1)).Nodup ∧
      ∀ kv ∈ s.contexts.filter p, kv.2.id = kv.1 := by
  constructor
  · exact ((List.filter_sublist s.contexts).map (·.1)).nodup h.1
  · intro kv hkv
    exact h.2 kv (List.mem_filter.mp hkv).1

theorem greedyKeepIds_eq (l : List ContextItem) (cur tgt : Nat) :
    greedyKeepIds l cur tgt = (greedySelect l cur tgt).map (·.id) := by
  induction l generalizing cur with
  | nil => rfl
  | cons c rest ih =>
    rw [greedyKeepIds, greedySelect]
    split_ifs with h1
    · rw [List.map_cons, ih]
    · rfl

/-- The key counting argument: in a well-formed association list, the entries
whose keys appear in the id list of a selection drawn from the stored items
weigh no more than the selection. -/
theorem assoc_filter_sum_le (l : List (Str × ContextItem))
    (sel : List ContextItem)
    (hnodup : (l.map (·.1)).Nodup)
    (hcoh : ∀ kv ∈ l, kv.2.id = kv.1)
    (hselsub : ∀ c ∈ sel, c ∈ l.map (·.2)) :
    sumTok ((l.filter (fun kv => (sel.map (·.id)).elem kv.1)).map (·.2)) ≤
      sumTok sel := by
  have hvalsid : (l.map (·.2)).map (·.id) = l.map (·.1) := by
    rw [List.map_map]
    exact List.map_congr_left (fun kv hkv => hcoh kv hkv)
  have hvalsnodup : ((l.map (·.2)).map (·.id)).Nodup := by
    rw [hvalsid]
    exact hnodup
  have hfid : ((l.filter (fun kv => (sel.map (·.id)).elem kv.1)).map (·.2)).map (·.id)
      = (l.filter (fun kv => (sel.map (·.id)).elem kv.1)).map (·.1) := by
    rw [List.map_map]
    refine List.map_congr_left ?_
    intro kv hkv
    exact hcoh kv (List.mem_filter.mp hkv).1
  have hdnodup : ((l.filter (fun kv => (sel.map (·.id)).elem kv.1)).map (·.2)).Nodup := by
    refine List.Nodup.of_map (·.id) ?_
    rw [hfid]
    exact ((List.filter_sublist l).map (·.1)).nodup hnodup
  have hdsub : ((l.filter (fun kv => (sel.map (·.id)).elem kv.1)).map (·.2)) ⊆ sel := by
    intro x hx
    rw [List.mem_map] at hx
    obtain ⟨kv, hkv, hkvx⟩ := hx
    have hkv1 := (List.mem_filter.mp hkv).1
    have hkv2 := (List.mem_filter.mp hkv).2
    rw [List.elem_iff, List.mem_map] at hkv2
    obtain ⟨c, hc, hcid⟩ := hkv2
    have hxid : x.id = kv.1 := by
      rw [← hkvx]
      exact hcoh kv hkv1
    have hxmem : x ∈ l.map (·.2) := by
      rw [← hkvx]
      exact List.mem_map_of_mem (·.2) hkv1
    have hcmem : c ∈ l.map (·.2) := hselsub c hc
    have : x = c :=
      List.inj_on_of_nodup_map hvalsnodup hxmem hcmem (by rw [hxid, hcid])
    rw [this]
    exact hc
  exact sumTok_subperm (List.subperm_of_subset hdnodup hdsub)

/-- After a rebuild, the store's total is the greedy selection's weight: the
kept entries are exactly those whose key survived, and in a well-formed store
they weigh no more than the selection does. -/
theorem storeOptimize_total_le (s : StoreState) (target : Option Nat) (now : ℚ)
    (h : storeWF s) :
    totalTokens (storeOptimize s target now) ≤ storeTarget s target := by
  rw [storeOptimize]
  dsimp only
  split
  next h0 => exact h0
  next h0 =>
    have hwf1 := storeWF_of_filter s
      (fun kv => decide (kv.1 ∉
        ((s.contexts.filter (fun kv => isExpired kv.2 now)).map (·.1)))) h
    set s1 := removeExpiredContexts s now with hs1
    have hs1ctx : s1.contexts = s.contexts.filter
        (fun kv => decide (kv.1 ∉
          ((s.contexts.filter (fun kv => isExpired kv.2 now)).map (·.1)))) := by
      rw [hs1, removeExpiredContexts]
      exact removeFold_contexts _ s
    have hwf : (s1.contexts.map (·.1)).Nodup ∧
        ∀ kv ∈ s1.contexts, kv.2.id = kv.1 := by
      rw [hs1ctx]
      exact hwf1
    set tgt := storeTarget s target with htgtdef
    set sorted := pySorted prioTimeDescLe (s1.contexts.map (·.2)) with hsorted
    set sel := greedySelect sorted 0 tgt with hsel
    have hkeep : greedyKeepIds sorted 0 tgt = sel.map (·.id) := by
      rw [hsel]
      exact greedyKeepIds_eq sorted 0 tgt
    have hfinal : ((((s1.contexts.map (·.1)).filter
          (fun k => !(greedyKeepIds sorted 0 tgt).elem k)).foldl
            removeContext s1).contexts) =
        s1.contexts.filter (fun kv => decide (kv.1 ∉
          ((s1.contexts.map (·.1)).filter
            (fun k => !(greedyKeepIds sorted 0 tgt).elem k)))) :=
      removeFold_contexts _ s1
    have hpoint : s1.contexts.filter (fun kv => decide (kv.1 ∉
          ((s1.contexts.map (·.1)).filter
            (fun k => !(greedyKeepIds sorted 0 tgt).elem k)))) =
        s1.contexts.filter (fun kv => (sel.map (·.id)).elem kv.1) := by
      refine List.filter_congr ?_
      intro kv hkv
      rw [hkeep]
      have hk : kv.1 ∈ s1.contexts.map (·.1) := List.mem_map_of_mem (·.1) hkv
      cases hb : (sel.map (·.id)).elem kv.1 with
      | true =>
        have hnot : kv.1 ∉ ((s1.contexts.map (·.1)).filter
            (fun k => !(sel.map (·.id)).elem k)) := by
          intro hmem
          have h2 := (List.mem_filter.mp hmem).2
          rw [hb] at h2
          exact Bool.noConfusion h2
        rw [decide_eq_true hnot]
      | false =>
        have hmem : kv.1 ∈ ((s1.contexts.map (·.1)).filter
            (fun k => !(sel.map (·.id)).elem k)) := by
          rw [List.mem_filter]
          exact ⟨hk, by rw [hb]; rfl⟩
        rw [decide_eq_false (fun hcon => hcon hmem)]
    rw [totalTokens, hfinal, hpoint]
    have hselsub : ∀ c ∈ sel, c ∈ s1.contexts.map (·.2) := by
      intro c hc
      have h1 : c ∈ sorted := (greedySelect_sublist sorted 0 tgt).subset hc
      rw [hsorted, mem_pySorted] at h1
      exact h1
    have hle1 : sumTok ((s1.contexts.filter
        (fun kv => (sel.map (·.id)).elem kv.1)).map (·.2)) ≤ sumTok sel :=
      assoc_filter_sum_le s1.contexts sel hwf.1 hwf.2 hselsub
    have hle2 : sumTok sel ≤ tgt := by
      have := greedySelect_le sorted 0 tgt (Nat.zero_le _)
      rw [← hsel] at this
      omega
    omega

/-- Removal-only optimization never increases the non-expired total. -/
theorem storeOptimize_nonexp_mono (s : StoreState) (target : Option Nat)
    (now : ℚ) :
    nonExpiredTokens (storeOptimize s target now) now ≤
      nonExpiredTokens s now := by
  rw [storeOptimize]
  dsimp only
  split
  next h0 => exact le_refl _
  next h0 =>
    have hs1ctx : (removeExpiredContexts s now).contexts =
        s.contexts.filter (fun kv => decide (kv.1 ∉
          ((s.contexts.filter (fun kv => isExpired kv.2 now)).map (·.1)))) := by
      rw [removeExpiredContexts]
      exact removeFold_contexts _ s
    have hfinal := removeFold_contexts
      (((removeExpiredContexts s now).contexts.map (·.1)).filter
        (fun k => !(greedyKeepIds (pySorted prioTimeDescLe
          ((removeExpiredContexts s now).contexts.map (·.2))) 0
            (storeTarget s target)).elem k))
      (removeExpiredContexts s now)
    rw [nonExpiredTokens, nonExpiredTokens, hfinal]
    refine sumTok_sublist (List.Sublist.filter _ (List.Sublist.map _ ?_))
    rw [hs1ctx]
    exact (List.filter_sublist _).trans (List.filter_sublist _)

theorem nonExpired_le_total (s : StoreState) (now : ℚ) :
    nonExpiredTokens s now ≤ totalTokens s := by
  rw [nonExpiredTokens, totalTokens]
  exact sumTok_sublist (List.filter_sublist _)

theorem categorize_contexts (s : StoreState) (c : ContextItem) :
    (categorizeContext s c).contexts = s.contexts := by
  rw [categorizeContext]
  split_ifs <;> rfl

theorem categorize_maxTokens (s : StoreState) (c : ContextItem) :
    (categorizeContext s c).maxTokens = s.maxTokens := by
  rw [categorizeContext]
  split_ifs <;> rfl

theorem setKey_keys_mem {β : Type} (l : List (Str × β)) (k : Str) (v : β) :
    ∀ x ∈ (setKey l k v).map (·.1), x = k ∨ x ∈ l.map (·.1) := by
  induction l with
  | nil =>
    intro x hx
    simp [setKey] at hx
    exact Or.inl hx
  | cons kv rest ih =>
    intro x hx
    rw [setKey] at hx
    split_ifs at hx with h1
    · simp only [List.map_cons, List.mem_cons] at hx ⊢
      rcases hx with hx | hx
      · exact Or.inl hx
      · exact Or.inr (Or.inr hx)
    · simp only [List.map_cons, List.mem_cons] at hx ⊢
      rcases hx with hx | hx
      · exact Or.inr (Or.inl hx)
      · rcases ih x hx with hx2 | hx2
        · exact Or.inl hx2
        · exact Or.inr (Or.inr hx2)

theorem setKey_nodup {β : Type} (l : List (Str × β)) (k : Str) (v : β)
    (h : (l.map (·.1)).Nodup) : ((setKey l k v).map (·.1)).Nodup := by
  induction l with
  | nil => simp [setKey]
  | cons kv rest ih =>
    rw [setKey]
    rw [List.map_cons, List.nodup_cons] at h
    split_ifs with h1
    · rw [List.map_cons, List.nodup_cons]
      exact ⟨by rw [← h1]; exact h.1, h.2⟩
    · rw [List.map_cons, List.nodup_cons]
      refine ⟨?_, ih h.2⟩
      intro hmem
      rcases setKey_keys_mem rest k v kv.1 hmem with h2 | h2
      · exact h1 h2
      · exact h.1 h2

theorem setKey_coh (l : List (Str × ContextItem)) (k : Str) (v : ContextItem)
    (h : ∀ kv ∈ l, kv.2.id = kv.1) (hv : v.id = k) :
    ∀ kv ∈ setKey l k v, kv.2.id = kv.1 := by
  induction l with
  | nil =>
    intro kv hkv
    rw [setKey, List.mem_singleton] at hkv
    rw [hkv]
    exact hv
  | cons kv0 rest ih =>
    intro kv hkv
    rw [setKey] at hkv
    split_ifs at hkv with h1
    · rw [List.mem_cons] at hkv
      rcases hkv with hkv | hkv
      · rw [hkv]
        exact hv
      · exact h kv (List.mem_cons_of_mem kv0 hkv)
    · rw [List.mem_cons] at hkv
      rcases hkv with hkv | hkv
      · rw [hkv]
        exact h kv0 (List.mem_cons_self kv0 rest)
      · exact ih (fun x hx => h x (List.mem_cons_of_mem kv0 hx)) kv hkv

/-
Claim theorems.
-/

/-- C1: Budget invariant of the Eviction Optimizer.  For every item list and
every positive target, under any strategy name, when the tokens of the
system-typed items fit the target the selected items' cumulative token_count
is at most the target; and in the system-dominated case (here for the hybrid
strategy that documents the exception, with all items active) all system items
are kept even though the bound is exceeded. -/
theorem c1_budget_invariant :
    (∀ (T : TokenCounter) (cfg : OptConfig) (mx : Nat) (l : List ContextItem)
      (tgt : Nat) (strat : Str) (now : ℚ), 0 < tgt →
      sumTok (l.filter isSysB) ≤ tgt →
      sumTok (optimizeContexts T cfg mx l (some tgt) strat now).1 ≤ tgt) ∧
    (∀ (T : TokenCounter) (cfg : OptConfig) (mx : Nat) (l : List ContextItem)
      (tgt : Nat) (now : ℚ), 0 < tgt →
      (∀ c ∈ l, activePred cfg now c = true) →
      tgt < sumTok (l.filter isSysB) →
      (optimizeContexts T cfg mx l (some tgt) "hybrid".toList now).1 =
        l.filter isSysB ∧
      tgt < sumTok (optimizeContexts T cfg mx l (some tgt) "hybrid".toList now).1) := by
  constructor
  · intro T cfg mx l tgt strat now htgt hsys
    rw [optimizeContexts]
    have heff : effTarget mx (some tgt) = tgt := by
      rw [effTarget]
      simp
      omega
    rw [heff]
    split
    next h0 => exact h0
    next h0 => exact dispatch_le T cfg l tgt strat now hsys
  · intro T cfg mx l tgt now htgt hact hdom
    have heff : effTarget mx (some tgt) = tgt := by
      rw [effTarget]
      simp
      omega
    have hfall : sumTok (l.filter isSysB) ≤ sumTok l :=
      sumTok_sublist (List.filter_sublist l)
    have hover : ¬ (sumTok l ≤ tgt) := by omega
    have hdisp : dispatchStrategy T cfg l tgt "hybrid".toList now =
        optimizeHybrid T cfg l tgt now := rfl
    have hactive : filterActive cfg now l = l := by
      rw [filterActive]
      exact List.filter_eq_self.mpr hact
    have hres : (optimizeContexts T cfg mx l (some tgt) "hybrid".toList now).1 =
        l.filter isSysB := by
      rw [optimizeContexts]
      dsimp only
      rw [heff, if_neg hover]
      dsimp only
      rw [hdisp, optimizeHybrid, hactive]
      dsimp only
      have hd : tgt ≤ sumTok (l.filter
          (fun c => decide (c.type = "system".toList))) := le_of_lt hdom
      rw [if_pos hd]
      rfl
    exact ⟨hres, by rw [hres]; exact hdom⟩

set_option maxRecDepth 40000 in
/-- C1 witness: the first part at a one-item non-system list with target 600
under the priority strategy, and the second part at the pure-system scenario
item A with target 700. -/
theorem c1_budget_invariant_witness :
    sumTok (optimizeContexts TCdefault defaultOptConfig 100 [itemB] (some 600)
      "priority_based".toList 0).1 ≤ 600 ∧
    (optimizeContexts TCdefault defaultOptConfig 100 [itemA] (some 700)
      "hybrid".toList 0).1 = [itemA].filter isSysB :=
  ⟨c1_budget_invariant.1 TCdefault defaultOptConfig 100 [itemB] 600
      "priority_based".toList 0 (by decide) (by with_unfolding_all decide),
   (c1_budget_invariant.2 TCdefault defaultOptConfig 100 [itemA] 700 0
      (by decide) (by with_unfolding_all decide)
      (by with_unfolding_all decide)).1⟩

set_option maxRecDepth 40000 in
/-- C2: the spec's hybrid scenario expects {A unchanged, B compressed to at
most 200 tokens}; the code instead returns only {A}: the selection loop
compares a running total that already includes the 800 system tokens against
remaining = target - system tokens = 200, so B can never fit (1300 vs 200)
and the compression branch never fires (200 - 800 underflows to a
non-positive remainder, not > 100); C is likewise skipped. -/
theorem c2_hybrid_scenario_eval :
    (optimizeContexts TCdefault defaultOptConfig 100000 [itemA, itemB, itemC]
      (some 1000) "hybrid".toList 0).1 = [itemA] := by
  with_unfolding_all decide

set_option maxRecDepth 40000 in
/-- C3: the safety checker rejects the script-tag content, yet add inserts the
item and returns its id as a success signal: the source computes
is_safe_string's boolean and discards it, so nothing stops the insertion. -/
theorem c3_unsafe_add_inserts_eval :
    isSafeString unsafeContent = false ∧
    (addContext TCdefault (emptyStore 1000) unsafeContent "general".toList 1
      [] [] none 0 "i1".toList).2 = "i1".toList ∧
    ((addContext TCdefault (emptyStore 1000) unsafeContent "general".toList 1
      [] [] none 0 "i1".toList).1).contexts.map (fun kv => (kv.1, kv.2.content)) =
      [("i1".toList, unsafeContent)] := by
  with_unfolding_all decide

set_option maxRecDepth 40000 in
/-- C5 counterexample: the expired item E (expiry -1 < now = 0) is returned by
get_contexts_by_priority, so the claim that an expired item appears in no
read/serve operation is false as stated. -/
theorem c5_expired_in_priority_read_cex :
    isExpired itemE 0 = true ∧ itemE ∈ getContextsByPriority storeE 1 := by
  with_unfolding_all decide

/-- C5 amended: an expired item is excluded from search_contexts and from the
get_context_window item selection, regardless of priority; the remaining read
operations (get_contexts_by_type, get_contexts_by_priority,
get_recent_contexts) do not filter expired items. -/
theorem c5_expiry_exclusion_amended (s : StoreState) (now : ℚ) (q : Str)
    (ty : Option Str) (tags : Option (List Str)) (mt : Option Nat)
    (c : ContextItem) (hexp : isExpired c now = true) :
    c ∉ searchContexts s q ty tags now ∧ c ∉ windowItems s mt now := by
  constructor
  · intro hmem
    rw [searchContexts, mem_pySorted, List.mem_filter] at hmem
    have hm := hmem.2
    rw [searchMatch.eq_def, hexp, if_pos rfl] at hm
    exact absurd hm (by decide)
  · intro hmem
    rw [windowItems.eq_def] at hmem
    have hmem2 := (greedySelect_sublist _ _ _).subset hmem
    rw [mem_pySorted, List.mem_filter] at hmem2
    have hm := hmem2.2
    rw [hexp] at hm
    exact absurd hm (by decide)

set_option maxRecDepth 40000 in
/-- C5 witness: the amended exclusions at the concrete expired item E. -/
theorem c5_expiry_exclusion_amended_witness :
    itemE ∉ searchContexts storeE "hello".toList none none 0 ∧
    itemE ∉ windowItems storeE none 0 :=
  c5_expiry_exclusion_amended storeE 0 "hello".toList none none none itemE
    (by with_unfolding_all decide)

set_option maxRecDepth 40000 in
/-- C7 counterexample: a 240-character content (60 fallback tokens, no
whitespace or filler words) with budget 50 — not below the 50-token minimum —
is dropped (none) instead of being hard-truncated to the budget: the
truncation step truncates only to the model limit (199500 here), which the
content does not exceed, so it stays 60 tokens and the final budget check
fails. -/
theorem c7_truncation_to_budget_cex :
    ¬ (50 < 50) ∧ compressContent TCdefault content240 50 = none := by
  constructor
  · decide
  · with_unfolding_all decide

/-- C7 amended: below 50 token-units the fallback returns no result (the item
is dropped); the cleanup pipeline's truncation step truncates only to the
model limit, not to the caller's budget, so cleaned content still over the
budget yields no result rather than a truncated string; whenever a result is
returned, its measure is at most the target. -/
theorem c7_compress_fallback_amended :
    (∀ (T : TokenCounter) (c : ContextItem) (m : Nat), m < 50 →
      tryCompressContext T c m = none) ∧
    (∀ (T : TokenCounter) (content : Str) (m : Nat) (cc : Str),
      compressContent T content m = some cc → countTokens T cc ≤ m) := by
  constructor
  · intro T c m hm
    rw [tryCompressContext, if_pos hm]
  · intro T content m cc h
    exact compressContent_le h

set_option maxRecDepth 40000 in
/-- C7 witness: the below-minimum drop at budget 49, and the budget bound of a
successful compression of itemD's content at budget 60. -/
theorem c7_compress_fallback_amended_witness :
    tryCompressContext TCdefault itemD 49 = none ∧
    countTokens TCdefault (List.replicate 100 'a') ≤ 60 :=
  ⟨c7_compress_fallback_amended.1 TCdefault itemD 49 (by decide),
   c7_compress_fallback_amended.2 TCdefault (List.replicate 100 'a') 60
      (List.replicate 100 'a') (by with_unfolding_all decide)⟩

/-- C10: whenever _try_compress_context succeeds, the returned item is a fresh
item whose priority is max 1 (original - 1), whose relevance is 0.9 times the
original, with the compressed tag appended and every other field copied; its
token_count is the re-measured count of its (compressed) content.  The source
builds a new ContextItem and never writes to the argument's fields, which the
pure model reflects by construction. -/
theorem c10_compression_penalty_fields (T : TokenCounter) (c out : ContextItem)
    (m : Nat) (h : tryCompressContext T c m = some out) :
    out.priority = max 1 (c.priority - 1) ∧
    out.relevance_score = c.relevance_score * (9/10 : ℚ) ∧
    out.tags = c.tags ++ ["compressed".toList] ∧
    out.id = c.id ∧ out.type = c.type ∧ out.timestamp = c.timestamp ∧
    out.metadata = c.metadata ∧ out.expiry = c.expiry ∧
    out.token_count = countTokens T out.content := by
  rw [tryCompressContext] at h
  split at h
  next h1 => exact Option.noConfusion h
  next h1 =>
    cases hc : compressContent T c.content m with
    | none =>
      rw [hc] at h
      exact Option.noConfusion h
    | some cc =>
      rw [hc] at h
      rw [Option.some.injEq] at h
      rw [← h]
      exact ⟨rfl, rfl, rfl, rfl, rfl, rfl, rfl, rfl, rfl⟩

set_option maxRecDepth 40000 in
/-- C10 witness: the field equations at the concrete compression of itemD
with a 60-token budget. -/
theorem c10_compression_penalty_fields_witness :
    itemDCompressed.priority = max 1 (itemD.priority - 1) ∧
    itemDCompressed.relevance_score = itemD.relevance_score * (9/10 : ℚ) ∧
    itemDCompressed.tags = itemD.tags ++ ["compressed".toList] ∧
    itemDCompressed.id = itemD.id ∧ itemDCompressed.type = itemD.type ∧
    itemDCompressed.timestamp = itemD.timestamp ∧
    itemDCompressed.metadata = itemD.metadata ∧
    itemDCompressed.expiry = itemD.expiry ∧
    itemDCompressed.token_count =
      countTokens TCdefault itemDCompressed.content :=
  c10_compression_penalty_fields TCdefault itemD itemDCompressed 60
    (by with_unfolding_all decide)

set_option maxRecDepth 100000 in
/-- C8 counterexample: a required-overflow input on which a required section
is dropped instead of being shrunk to its quota: next to secP (priority 10)
under an available budget of 400, the required section secQ (priority 1) gets
the quota int(400*1/11) = 36, below the 50-token minimum, so
_truncate_section returns none and secQ yields no output at all — only the
truncation of secP (priority 10) remains. -/
theorem c8_required_drop_cex :
    400 < sumTokW ([secP, secQ].filter (·.required)) ∧
    secQ.required = true ∧
    (optimizeSections TCchar4 [secP, secQ] 400).map (·.priority) = [10] := by
  refine ⟨by decide, by decide, ?_⟩
  with_unfolding_all decide

set_option maxRecDepth 100000 in
/-- C8 amended: when the required sections alone overflow the available
budget, the result is exactly the proportional truncation of the required
sections with each section allocated the quota int(available * priority /
total required priority): a required section whose quota reaches the 50-token
minimum survives — kept outright when it fits, else shrunk to fit its quota —
while one whose quota falls below 50 is dropped entirely; every output fits
its quota and carries the required flag (optional sections never appear);
concretely, two equal-priority required 900-token sections under an available
budget of 1000 are each truncated to 468 token-units, under their 500-token
quota, and the optional section present is excluded. -/
theorem c8_window_required_overflow :
    (∀ (T : TokenCounter) (secs : List WindowSection) (m : Nat),
      m < sumTokW (secs.filter (·.required)) →
      optimizeSections T secs m =
        truncateSections T (secs.filter (·.required)) m) ∧
    (∀ (T : TokenCounter) (secs : List WindowSection) (m : Nat)
      (out : WindowSection), out ∈ truncateSections T secs m →
      out.token_count ≤ m * out.priority / sumPrioW secs) ∧
    (∀ (T : TokenCounter) (secs : List WindowSection) (m : Nat)
      (out : WindowSection),
      out ∈ truncateSections T (secs.filter (·.required)) m →
      out.required = true) ∧
    (∀ (T : TokenCounter) (secs : List WindowSection) (m : Nat)
      (sec : WindowSection), sec ∈ secs →
      50 ≤ m * sec.priority / sumPrioW secs →
      ∃ out ∈ truncateSections T secs m,
        out.priority = sec.priority ∧ out.required = sec.required ∧
        out.token_count ≤ m * sec.priority / sumPrioW secs) ∧
    (optimizeSections TCchar4 [secA, secC, secB] 1000 = [secATrunc, secBTrunc] ∧
      secATrunc.token_count ≤ 500 ∧ secBTrunc.token_count ≤ 500) := by
  have hmem : ∀ (T : TokenCounter) (secs : List WindowSection) (m : Nat)
      (out : WindowSection), out ∈ truncateSections T secs m →
      ∃ sec ∈ secs, out.token_count ≤ m * sec.priority / sumPrioW secs ∧
        out.required = sec.required ∧ out.priority = sec.priority := by
    intro T secs m out hout
    rw [truncateSections] at hout
    split at hout
    next h0 =>
      exact absurd hout (List.not_mem_nil out)
    next h0 =>
      rw [List.mem_filterMap] at hout
      obtain ⟨sec, hsec, hf⟩ := hout
      refine ⟨sec, hsec, ?_⟩
      dsimp only at hf
      split at hf
      next halloc =>
        have hspec := truncateSection_spec hf
        exact ⟨le_trans hspec.1 (le_refl _), hspec.2.1, hspec.2.2⟩
      next halloc =>
        rw [Option.some.injEq] at hf
        rw [← hf]
        exact ⟨by omega, rfl, rfl⟩
  refine ⟨?_, ?_, ?_, ?_, ?_⟩
  · intro T secs m h
    rw [optimizeSections, if_pos h]
  · intro T secs m out hout
    obtain ⟨sec, _, hq, _, hp⟩ := hmem T secs m out hout
    rw [hp]
    exact hq
  · intro T secs m out hout
    obtain ⟨sec, hsec, _, hr, _⟩ := hmem T _ m out hout
    rw [List.mem_filter] at hsec
    rw [hr]
    exact hsec.2
  · intro T secs m sec hsec h50
    have hne : secs ≠ [] := by
      intro h0
      rw [h0] at hsec
      exact List.not_mem_nil sec hsec
    rw [truncateSections, if_neg hne]
    dsimp only
    by_cases halloc : m * sec.priority / sumPrioW secs < sec.token_count
    · cases hts : truncateSection T sec (m * sec.priority / sumPrioW secs) with
      | none =>
        rw [truncateSection, if_neg (not_lt.mpr h50)] at hts
        exact Option.noConfusion hts
      | some out =>
        have hspec := truncateSection_spec hts
        refine ⟨out, List.mem_filterMap.mpr ⟨sec, hsec, ?_⟩,
          hspec.2.2, hspec.2.1, hspec.1⟩
        dsimp only
        rw [if_pos halloc]
        exact hts
    · refine ⟨sec, List.mem_filterMap.mpr ⟨sec, hsec, ?_⟩, rfl, rfl,
        not_lt.mp halloc⟩
      dsimp only
      rw [if_neg halloc]
  · refine ⟨?_, by decide, by decide⟩
    with_unfolding_all decide

set_option maxRecDepth 100000 in
/-- C8 witness: the overflow branch equation, the quota bound, and the
survival of an adequately-quota'd required section, all at the concrete
two-required-section scenario. -/
theorem c8_window_required_overflow_witness :
    optimizeSections TCchar4 [secA, secC, secB] 1000 =
      truncateSections TCchar4 ([secA, secC, secB].filter (·.required)) 1000 ∧
    secATrunc.token_count ≤
      1000 * secATrunc.priority /
        sumPrioW ([secA, secC, secB].filter (·.required)) ∧
    ∃ out ∈ truncateSections TCchar4 ([secA, secC, secB].filter (·.required))
        1000, out.priority = secA.priority ∧ out.required = secA.required ∧
      out.token_count ≤ 1000 * secA.priority /
        sumPrioW ([secA, secC, secB].filter (·.required)) :=
  ⟨c8_window_required_overflow.1 TCchar4 [secA, secC, secB] 1000 (by decide),
   c8_window_required_overflow.2.1 TCchar4
      ([secA, secC, secB].filter (·.required)) 1000 secATrunc
      (by with_unfolding_all decide),
   c8_window_required_overflow.2.2.2.1 TCchar4
      ([secA, secC, secB].filter (·.required)) 1000 secA (by decide)
      (by decide)⟩

/-- C6: optimization is idempotent for a fixed strategy, target and now:
applying optimize a second time to the first application's selected items
returns them unchanged.  Every strategy's selection fits the effective target
(so the second call takes the no-op branch), except hybrid's system-dominated
case, where the second call reproduces the same system-item list. -/
theorem c6_optimize_idempotent (T : TokenCounter) (cfg : OptConfig) (mx : Nat)
    (l : List ContextItem) (target : Option Nat) (strat : Str) (now : ℚ) :
    (optimizeContexts T cfg mx
      (optimizeContexts T cfg mx l target strat now).1 target strat now).1 =
      (optimizeContexts T cfg mx l target strat now).1 := by
  by_cases h0 : sumTok l ≤ effTarget mx target
  · rw [optimizeContexts_fits T cfg mx l target strat now h0]
    exact optimizeContexts_fits T cfg mx l target strat now h0
  · rw [optimizeContexts_over T cfg mx l target strat now h0]
    by_cases hp : strat = "priority_based".toList
    · subst hp
      have hdisp : dispatchStrategy T cfg l (effTarget mx target)
          "priority_based".toList now =
          optimizeByPriority l (effTarget mx target) := rfl
      rw [hdisp]
      apply optimizeContexts_fits
      have := greedySelect_le (pySorted prioTimeDescLe l) 0
        (effTarget mx target) (Nat.zero_le _)
      rw [optimizeByPriority]
      omega
    by_cases hr : strat = "recency_based".toList
    · subst hr
      have hdisp : dispatchStrategy T cfg l (effTarget mx target)
          "recency_based".toList now =
          optimizeByRecency l (effTarget mx target) := rfl
      rw [hdisp]
      apply optimizeContexts_fits
      have := greedySelect_le
        (pySorted (fun a b => decide (b.timestamp ≤ a.timestamp)) l) 0
        (effTarget mx target) (Nat.zero_le _)
      rw [optimizeByRecency]
      omega
    by_cases hv : strat = "relevance_based".toList
    · subst hv
      have hdisp : dispatchStrategy T cfg l (effTarget mx target)
          "relevance_based".toList now =
          optimizeByRelevance cfg l (effTarget mx target) := rfl
      rw [hdisp]
      apply optimizeContexts_fits
      have := relevanceLoop_le cfg.relevanceThreshold
        (pySorted (fun a b => decide (b.relevance_score ≤ a.relevance_score))
          (updateRelevanceScores l)) 0 (effTarget mx target) (Nat.zero_le _)
      rw [optimizeByRelevance]
      omega
    by_cases hc : strat = "compression".toList
    · subst hc
      have hdisp : dispatchStrategy T cfg l (effTarget mx target)
          "compression".toList now =
          optimizeByCompression T l (effTarget mx target) := rfl
      rw [hdisp]
      apply optimizeContexts_fits
      have := compressionLoop_le T (pySorted prioTimeDescLe l) 0
        (effTarget mx target) (Nat.zero_le _)
      rw [optimizeByCompression]
      omega
    by_cases hg : strat = "semantic_grouping".toList
    · subst hg
      have hdisp : dispatchStrategy T cfg l (effTarget mx target)
          "semantic_grouping".toList now =
          optimizeBySemantic l (effTarget mx target) := rfl
      rw [hdisp]
      apply optimizeContexts_fits
      have := semanticLoop_le
        (pySorted (fun a b => decide (maxPrio b ≤ maxPrio a))
          (semanticGroups l)) 0 (effTarget mx target) (Nat.zero_le _)
      rw [optimizeBySemantic]
      omega
    · have hdisp : ∀ (ll : List ContextItem),
          dispatchStrategy T cfg ll (effTarget mx target) strat now =
          optimizeHybrid T cfg ll (effTarget mx target) now := fun ll => by
        rw [dispatchStrategy, if_neg hp, if_neg hr, if_neg hv, if_neg hc,
          if_neg hg]
      rw [hdisp l]
      by_cases hdom : effTarget mx target ≤
          sumTok ((filterActive cfg now l).filter
            (fun c => decide (c.type = "system".toList)))
      · have hres : optimizeHybrid T cfg l (effTarget mx target) now =
            (filterActive cfg now l).filter
              (fun c => decide (c.type = "system".toList)) := by
          rw [optimizeHybrid]
          dsimp only
          rw [if_pos hdom]
        rw [hres]
        have hmemact : ∀ x ∈ (filterActive cfg now l).filter
            (fun c => decide (c.type = "system".toList)),
            activePred cfg now x = true := by
          intro x hx
          have hx2 := (List.mem_filter.mp hx).1
          rw [filterActive] at hx2
          exact (List.mem_filter.mp hx2).2
        have hmemsys : ∀ x ∈ (filterActive cfg now l).filter
            (fun c => decide (c.type = "system".toList)),
            x.type = "system".toList := by
          intro x hx
          have := (List.mem_filter.mp hx).2
          exact of_decide_eq_true this
        by_cases heq : sumTok ((filterActive cfg now l).filter
            (fun c => decide (c.type = "system".toList))) ≤ effTarget mx target
        · exact optimizeContexts_fits T cfg mx _ target strat now heq
        · rw [optimizeContexts_over T cfg mx _ target strat now heq, hdisp _]
          exact optimizeHybrid_on_system T cfg _ (effTarget mx target) now
            hmemact hmemsys hdom
      · have hb := optimizeHybrid_lt T cfg l (effTarget mx target) now
          (not_le.mp hdom)
        exact optimizeContexts_fits T cfg mx _ target strat now hb

/-- Auto-optimization in add_context restores the budget: either the total
already fits, or the rebuild brings it under 90% of max_tokens. -/
theorem addContext_opt_aux (s2 : StoreState) (now : ℚ) (M : Nat)
    (hmax : s2.maxTokens = M) (hwf2 : storeWF s2) :
    nonExpiredTokens (if M < totalTokens s2 then storeOptimize s2 none now
      else s2) now ≤ M := by
  split
  next h2 =>
    have hb := storeOptimize_total_le s2 none now hwf2
    have hne := nonExpired_le_total (storeOptimize s2 none now) now
    rw [storeTarget, hmax] at hb
    have hdiv : 9 * M / 10 ≤ M := by
      calc 9 * M / 10 ≤ 10 * M / 10 := Nat.div_le_div_right (by omega)
        _ = M := Nat.mul_div_cancel_left M (by norm_num)
    omega
  next h2 =>
    have hne := nonExpired_le_total s2 now
    omega

/-- C4: Store soft budget invariant.  After add_context returns (insertion
plus auto-optimization) the non-expired token total of a well-formed store is
within max_tokens; and optimize_context preserves the invariant for any
explicit target, since it only removes items. -/
theorem c4_store_soft_budget :
    (∀ (T : TokenCounter) (s : StoreState) (content ty : Str) (prio : Int)
      (md : List (Str × Str)) (tags : List Str) (exp : Option ℚ) (now : ℚ)
      (nid : Str), storeWF s →
      nonExpiredTokens (addContext T s content ty prio md tags exp now nid).1
        now ≤ s.maxTokens) ∧
    (∀ (s : StoreState) (target : Option Nat) (now : ℚ),
      nonExpiredTokens s now ≤ s.maxTokens →
      nonExpiredTokens (storeOptimize s target now) now ≤ s.maxTokens) := by
  constructor
  · intro T s content ty prio md tags exp now nid hwf
    rw [addContext]
    dsimp only
    apply addContext_opt_aux
    · rw [categorize_maxTokens]
    · rw [storeWF, categorize_contexts]
      dsimp only
      exact ⟨setKey_nodup s.contexts nid _ hwf.1,
        setKey_coh s.contexts nid _ hwf.2 rfl⟩
  · intro s target now h
    exact le_trans (storeOptimize_nonexp_mono s target now) h

set_option maxRecDepth 40000 in
/-- C4 witness: add of a small item into the empty store, and optimize of the
store holding only the expired item. -/
theorem c4_store_soft_budget_witness :
    nonExpiredTokens (addContext TCdefault (emptyStore 100) "hello".toList
      "general".toList 1 [] [] none 0 "i1".toList).1 0 ≤ 100 ∧
    nonExpiredTokens (storeOptimize storeE none 0) 0 ≤ storeE.maxTokens :=
  ⟨c4_store_soft_budget.1 TCdefault (emptyStore 100) "hello".toList
      "general".toList 1 [] [] none 0 "i1".toList (by decide),
   c4_store_soft_budget.2 storeE none 0 (by with_unfolding_all decide)⟩

theorem setKey_mem {β : Type} (l : List (Str × β)) (k : Str) (v : β) :
    ∀ x ∈ setKey l k v, x = (k, v) ∨ x ∈ l := by
  induction l with
  | nil =>
    intro x hx
    rw [setKey, List.mem_singleton] at hx
    exact Or.inl hx
  | cons kv rest ih =>
    intro x hx
    rw [setKey] at hx
    split_ifs at hx with h1
    · rw [List.mem_cons] at hx
      rcases hx with hx | hx
      · exact Or.inl hx
      · exact Or.inr (List.mem_cons_of_mem kv hx)
    · rw [List.mem_cons] at hx
      rcases hx with hx | hx
      · exact Or.inr (hx ▸ List.mem_cons_self kv rest)
      · rcases ih x hx with hx2 | hx2
        · exact Or.inl hx2
        · exact Or.inr (List.mem_cons_of_mem kv hx2)

/-- Whatever the entry loop has inserted decodes from some snapshot entry. -/
theorem loadEntries_mem (iso : Str → Option ℚ) :
    ∀ (raw : List (Str × RawItem)) (acc : List (Str × ContextItem))
      (x : Str × ContextItem), x ∈ (loadEntries iso raw acc).1 →
      x ∈ acc ∨ ∃ k r, (k, r) ∈ raw ∧ fromDict iso r = some x.2 ∧ x.1 = k := by
  intro raw
  induction raw with
  | nil =>
    intro acc x hx
    exact Or.inl hx
  | cons kr rest ih =>
    intro acc x hx
    rw [loadEntries] at hx
    cases hf : fromDict iso kr.2 with
    | none =>
      rw [hf] at hx
      exact Or.inl hx
    | some item =>
      rw [hf] at hx
      rcases ih (setKey acc kr.1 item) x hx with hx2 | hx2
      · rcases setKey_mem acc kr.1 item x hx2 with hx3 | hx3
        · refine Or.inr ⟨kr.1, kr.2, List.mem_cons_self kr rest, ?_, ?_⟩
          · rw [hx3, hf]
          · rw [hx3]
        · exact Or.inl hx3
      · rcases hx2 with ⟨k, r, hk, hr, hx1⟩
        exact Or.inr ⟨k, r, List.mem_cons_of_mem kr hk, hr, hx1⟩

theorem categorizeFold_contexts (items : List ContextItem) :
    ∀ (s : StoreState), ((items.foldl categorizeContext s).contexts) =
      s.contexts := by
  induction items with
  | nil => intro s; rfl
  | cons c rest ih =>
    intro s
    rw [List.foldl_cons, ih, categorize_contexts]

set_option maxRecDepth 40000 in
/-- C9 counterexample: loading the snapshot whose second entry is corrupt
reports failure but leaves the first entry in the store (with the order list
never written) — not the default empty state the claim requires. -/
theorem c9_load_partial_state_cex :
    (loadContext isoNone (.snap snapMixed) (emptyStore 1000)).2 = false ∧
    (loadContext isoNone (.snap snapMixed) (emptyStore 1000)).1.contexts =
      [("a".toList, itemGoodLoaded)] ∧
    (loadContext isoNone (.snap snapMixed) (emptyStore 1000)).1.contextOrder
      = [] := by
  with_unfolding_all decide

/-- C9 amended: the load surfaces failure as a boolean and never raises (the
model is a total function); a missing file leaves the store untouched with
success, an unreadable file leaves it untouched with failure, and after
loading any snapshot into a fresh store every stored entry decodes from some
snapshot entry under its own key — but a partially corrupt snapshot keeps the
entries that loaded before the corrupt one instead of restoring the default
empty state. -/
theorem c9_load_error_containment_amended :
    (∀ (iso : Str → Option ℚ) (s : StoreState),
      loadContext iso .missing s = (s, true)) ∧
    (∀ (iso : Str → Option ℚ) (s : StoreState),
      loadContext iso .unreadable s = (s, false)) ∧
    (∀ (iso : Str → Option ℚ) (d : RawSnapshot) (m : Nat)
      (x : Str × ContextItem),
      x ∈ (loadContext iso (.snap d) (emptyStore m)).1.contexts →
      ∃ k r, (k, r) ∈ d.contexts ∧ fromDict iso r = some x.2 ∧ x.1 = k) := by
  refine ⟨fun iso s => rfl, fun iso s => rfl, ?_⟩
  intro iso d m x hx
  rw [loadContext] at hx
  have hmem : x ∈ (loadEntries iso d.contexts (emptyStore m).contexts).1 := by
    cases hle : loadEntries iso d.contexts (emptyStore m).contexts with
    | mk ctxs ok =>
      rw [hle] at hx
      cases ok with
      | true =>
        dsimp only at hx
        rw [categorizeFold_contexts] at hx
        exact hx
      | false =>
        dsimp only at hx
        exact hx
  rcases loadEntries_mem iso d.contexts (emptyStore m).contexts x hmem with
    hx2 | hx2
  · exact absurd hx2 (List.not_mem_nil x)
  · exact hx2

set_option maxRecDepth 40000 in
/-- C9 witness: the decode origin of the one entry loaded from the partially
corrupt snapshot. -/
theorem c9_load_error_containment_amended_witness :
    ∃ k r, (k, r) ∈ snapMixed.contexts ∧
      fromDict isoNone r = some itemGoodLoaded ∧ "a".toList = k :=
  c9_load_error_containment_amended.2.2 isoNone snapMixed 1000
    ("a".toList, itemGoodLoaded) (by with_unfolding_all decide)

end CtxEng
